import Mathlib

/-!
# media-kit: shallow embedding and verification

Shallow embedding of `@classytic/media-kit`'s orchestration core:
the upload flow (`MediaKitImpl.upload` in `src/media.ts`), the deletion flow
(`MediaKitImpl.delete`), and the repository tenant filtering
(`MediaRepository` in `src/repository/media.repository.ts`).

External collaborators (storage provider, image processor, persistence) are
modelled as outcome stubs; an execution is a deterministic run against those
stubs, producing a result together with a trace of observable effects
(lifecycle events, storage puts/deletes, persistence calls, warnings).
-/

namespace MediaKit

/-! ## Data model -/

/-- Raw file contents; a byte buffer modelled as a list of bytes. -/
abbrev Buffer := List Nat

/-- Result of one successful storage `upload` (the `UploadResult` of a provider). -/
structure StorageHandle where
  url : String
  key : String
  size : Nat
deriving DecidableEq, Repr

/-- Output of `ImageProcessor.process`. -/
structure ProcessedImage where
  buffer : Buffer
  mimeType : String
  width : Nat
  height : Nat
deriving DecidableEq, Repr

/-- Output of `ImageProcessor.generateVariants` for one configured size. -/
structure VariantImage where
  buffer : Buffer
  width : Nat
  height : Nat
deriving DecidableEq, Repr

/-- One configured size variant (`config.processing.sizes` entry); only the
name participates in the orchestration logic. -/
structure SizeVariant where
  name : String
deriving DecidableEq, Repr

/-- A stored-and-recorded variant (the `GeneratedVariant` pushed in `upload`). -/
structure GeneratedVariant where
  name : String
  url : String
  key : String
  size : Nat
  width : Nat
  height : Nat
deriving DecidableEq, Repr

/-- The persisted media document constructed by `upload` (`repo.create` payload,
after the repository's stamping of `uploadedBy` and the tenant field). -/
structure MediaDoc where
  filename : String
  originalName : String
  mimeType : String
  size : Nat
  url : String
  key : String
  baseFolder : String
  folder : String
  alt : Option String
  title : Option String
  dims : Option (Nat × Nat)
  variants : Option (List GeneratedVariant)
  uploadedBy : Option String
  orgStamp : Option (String × String)
deriving DecidableEq, Repr

/-- Per-operation context (`OperationContext`). -/
structure OperationContext where
  organizationId : Option String := none
  userId : Option String := none
deriving DecidableEq, Repr

/-- `UploadInput` as destructured by `upload`. -/
structure UploadInput where
  buffer : Buffer
  filename : String
  mimeType : String
  folder : Option String := none
  title : Option String := none
  alt : Option String := none
  contentType : Option String := none
  skipProcessing : Bool := false
deriving DecidableEq, Repr

/-! ## Configuration (after the constructor's merge with defaults) -/

structure FileTypesConfig where
  allowed : List String
  maxSize : Option Nat
deriving DecidableEq, Repr

structure FoldersConfig where
  baseFolders : List String
  defaultFolder : String
  contentTypeMap : List (String × List String)
deriving DecidableEq, Repr

structure ProcessingConfig where
  enabled : Bool
  sizes : List SizeVariant
  generateAlt : Bool
deriving DecidableEq, Repr

structure MultiTenancyConfig where
  enabled : Bool
  tenantKey : String
deriving DecidableEq, Repr

/-- The merged `MediaKitConfig`, plus whether `init(model)` has been called
(`this.repo` non-null). -/
structure MKConfig where
  initialized : Bool
  fileTypes : FileTypesConfig
  folders : FoldersConfig
  processing : ProcessingConfig
  multiTenancy : MultiTenancyConfig
deriving DecidableEq, Repr

/-- The effective tenant field name: `multiTenancy.field || 'organizationId'`. -/
def tenantField (mt : MultiTenancyConfig) : String :=
  if mt.tenantKey == "" then "organizationId" else mt.tenantKey

/-! ## Errors -/

inductive MKError where
  | notInitialized
  | tenantRequired (tfield : String)
  | validationMime (mime : String)
  | validationSize
  | invalidFolder
  | storage (msg : String)
  | persistence (msg : String)
deriving DecidableEq, Repr

/-- Outcomes are comparable, so concrete runs can be checked by evaluation. -/
instance exceptDecEq {ε α : Type} [DecidableEq ε] [DecidableEq α] : DecidableEq (Except ε α)
  | .ok a, .ok b =>
    if h : a = b then .isTrue (by rw [h])
    else .isFalse (by intro hh; cases hh; exact h rfl)
  | .ok _, .error _ => .isFalse (by intro hh; cases hh)
  | .error _, .ok _ => .isFalse (by intro hh; cases hh)
  | .error e, .error f =>
    if h : e = f then .isTrue (by rw [h])
    else .isFalse (by intro hh; cases hh; exact h rfl)

/-- The validation errors thrown by `validateFile`. -/
def MKError.isValidation : MKError → Bool
  | .validationMime _ => true
  | .validationSize => true
  | _ => false

/-! ## Observable events

A run's trace records lifecycle emissions, collaborator calls and warnings,
in the order the code performs them. -/

inductive PutRole where
  | main
  | variant (name : String)
deriving DecidableEq, Repr

inductive MKEv where
  | beforeUpload
  | afterUpload
  | errorUpload
  | putOk (role : PutRole) (filename : String) (buffer : Buffer) (folder : String) (key : String)
  | putFail (role : PutRole) (filename : String) (buffer : Buffer) (folder : String) (msg : String)
  | storageDel (key : String)
  | createCall (doc : MediaDoc)
  | warn (tag : String)
deriving DecidableEq, Repr

def MKEv.isPut : MKEv → Bool
  | .putOk _ _ _ _ _ => true
  | .putFail _ _ _ _ _ => true
  | _ => false

def MKEv.isMainPutOk : MKEv → Bool
  | .putOk .main _ _ _ _ => true
  | _ => false

def MKEv.isCreate : MKEv → Bool
  | .createCall _ => true
  | _ => false

def MKEv.isDel : MKEv → Bool
  | .storageDel _ => true
  | _ => false

def MKEv.isBefore : MKEv → Bool
  | .beforeUpload => true
  | _ => false

def MKEv.isAfter : MKEv → Bool
  | .afterUpload => true
  | _ => false

def MKEv.isErrorEv : MKEv → Bool
  | .errorUpload => true
  | _ => false

/-- The key of a storage delete event, if any. -/
def delKeyOf : MKEv → Option String
  | .storageDel k => some k
  | _ => none

/-! ## Collaborator stubs

The storage provider, image processor and persistence layer are external
collaborators; a stub fixes the outcome of each call. Storage put outcomes
are indexed by call number (0-based, in call order within one `upload`). -/

structure ProcessorStub where
  available : Bool
  processOutcome : Except String ProcessedImage
  variantsOutcome : Except String (List VariantImage)
  dimsOutcome : Option (Nat × Nat)

structure ProviderStub where
  putOutcome : Nat → Except String StorageHandle
  delOutcome : String → Except String Bool

structure UploadEnv where
  processor : ProcessorStub
  provider : ProviderStub
  createOutcome : Except String Unit
  genAlt : String → String

/-! ## Utility functions

`src/utils/mime.ts`, `src/utils/folders.ts` and `src/utils/alt-text.ts` are
not among the provided sources (only their unit tests are); the spec treats
them as excluded collaborators. The definitions below are modelled from the
spec and pinned by the behaviors their unit tests assert. -/

/-- Lowercase a string character by character (ASCII, as the source's
lowercasing is only ever applied to MIME types and folder paths). -/
def lowerStr (s : String) : String :=
  String.mk (s.toList.map Char.toLower)

/-- Whether `pre` is a prefix of `s`. -/
def strStarts (pre s : String) : Bool :=
  pre.toList.isPrefixOf s.toList

/-- Whether `suf` is a suffix of `s`. -/
def strEnds (suf s : String) : Bool :=
  suf.toList.isSuffixOf s.toList

/-- Split a character list on a separator character (TS `String.split`). -/
def splitChar (c : Char) : List Char → List (List Char)
  | [] => [[]]
  | a :: rest =>
    let r := splitChar c rest
    if a == c then [] :: r
    else
      match r with
      | [] => [[a]]
      | g :: gs => (a :: g) :: gs

/-- Split a string on `/` (TS `path.split('/')`). -/
def splitSlash (s : String) : List String :=
  (splitChar '/' s.toList).map fun g => String.mk g

/-- Join path segments with `/` (TS `segments.join('/')`). -/
def joinSlash : List String → String
  | [] => ""
  | [s] => s
  | s :: rest => s ++ "/" ++ joinSlash rest

/-- Modelled from the spec: MIME allow-list check of `src/utils/mime.ts`
(missing from src/; behavior fixed by its unit tests): case-insensitive,
supporting exact matches and `type/*` wildcard patterns. -/
def isAllowedMimeType (mime : String) (allowed : List String) : Bool :=
  allowed.any fun pat =>
    let p := lowerStr pat
    let m := lowerStr mime
    if strEnds "/*" p then strStarts (String.mk p.toList.dropLast) m else m == p

/-- Modelled from the spec: image MIME detection of `src/utils/mime.ts`
(missing from src/): a MIME type is an image iff it is in the `image/` family. -/
def isImage (mime : String) : Bool :=
  strStarts "image/" (lowerStr mime)

/-- Modelled from the spec: `normalizeFolderPath` of `src/utils/folders.ts`
(missing from src/; behavior fixed by its unit tests): strips leading,
trailing and duplicate slashes. -/
def normalizeFolderPath (path : String) : String :=
  joinSlash ((splitSlash path).filter (fun s => s ≠ ""))

/-- Modelled from the spec: `extractBaseFolder` of `src/utils/folders.ts`
(missing from src/): the first path segment. -/
def extractBaseFolder (path : String) : String :=
  (splitSlash path).headD ""

/-- Modelled from the spec: `isValidFolder` of `src/utils/folders.ts`
(missing from src/): the path's base folder must be one of the allowed base
folders. -/
def isValidFolder (path : String) (baseFolders : List String) : Bool :=
  baseFolders.contains (extractBaseFolder path)

/-- Whether `p` occurs as a contiguous run inside `s` (TS `String.includes`). -/
def charsInfix (p s : List Char) : Bool :=
  (List.range (s.length + 1)).any fun i => p.isPrefixOf (s.drop i)

/-- A TS-falsy check for optional strings (`undefined`, `null` or `''`). -/
def falsyStr : Option String → Bool
  | none => true
  | some s => s == ""

/-- `MediaKitImpl.getContentType`: first content type whose patterns occur in
the lowercased folder path, else `'default'`. -/
def getContentType (cfg : MKConfig) (folder : String) : String :=
  let folderLower := lowerStr folder
  match cfg.folders.contentTypeMap.find?
      (fun ct => ct.2.any (fun p => charsInfix (lowerStr p).toList folderLower.toList)) with
  | some ct => ct.1
  | none => "default"

/-- The filename split performed by the variant-filename construction in
`upload`: TS `filename.replace(/\.[^.]+$/, '')` and
`filename.match(/\.[^.]+$/)?.[0] || ''`, i.e. split off a final
dot-plus-nonempty-dotless extension when one exists. -/
def splitExt (s : String) : String × String :=
  let cs := s.toList
  let tail := cs.reverse.takeWhile (fun c => c != '.')
  if tail.length == cs.length || tail.length == 0 then (s, "")
  else (String.mk (cs.take (cs.length - tail.length - 1)), String.mk ('.' :: tail.reverse))

/-- The filename used for one variant's storage put:
stem, `-`, variant name, original extension. -/
def variantFilename (filename : String) (name : String) : String :=
  let se := splitExt filename
  se.1 ++ "-" ++ name ++ se.2

/-- TS `filename.split('/').pop() || filename` in the created record. -/
def basenameOf (s : String) : String :=
  let last := (splitSlash s).getLastD ""
  if last == "" then s else last

/-! ## Upload flow (`MediaKitImpl.upload`, src/media.ts lines 275-455) -/

/-- `MediaKitImpl.validateFile`: MIME allow-list (when non-empty), then
maximum size (when configured, i.e. truthy). -/
def validateFile (cfg : MKConfig) (buffer : Buffer) (mime : String) : Except MKError Unit :=
  if !cfg.fileTypes.allowed.isEmpty && !isAllowedMimeType mime cfg.fileTypes.allowed then
    .error (.validationMime mime)
  else
    match cfg.fileTypes.maxSize with
    | some maxSize => if buffer.length > maxSize then .error .validationSize else .ok ()
    | none => .ok ()

/-- `MediaKitImpl.requireTenant`: when multi-tenancy is enabled, a truthy
`context.organizationId` is required; otherwise no tenant. -/
def requireTenant (cfg : MKConfig) (ctx : Option OperationContext) :
    Except MKError (Option String) :=
  if !cfg.multiTenancy.enabled then .ok none
  else
    let orgId := ctx.bind (fun c => c.organizationId)
    if falsyStr orgId then .error (.tenantRequired (tenantField cfg.multiTenancy))
    else .ok orgId

/-- `config.folders.defaultFolder || 'general'`. -/
def defaultFolderOf (cfg : MKConfig) : String :=
  if cfg.folders.defaultFolder == "" then "general" else cfg.folders.defaultFolder

/-- The mutable state of the processing stage of `upload`:
`finalBuffer`, `finalMimeType`, `dimensions`, `variants`, plus the trace of
effects performed so far and the number of storage put calls made. -/
structure PhaseState where
  finalBuffer : Buffer
  finalMime : String
  dims : Option (Nat × Nat)
  variants : List GeneratedVariant
  trace : List MKEv
  putIdx : Nat
deriving DecidableEq, Repr

/-- The variant upload loop of `upload` (lines 360-383): for each configured
size, look up the generated variant at the same index (an out-of-range access
throws, caught by the surrounding processing catch), upload it, and push a
`GeneratedVariant`. A put failure throws to the processing catch, which logs
a warning and keeps everything assigned so far (in particular the variants
already pushed). -/
def uploadVariantsLoop (env : UploadEnv) (filename targetFolder : String)
    (vres : List VariantImage) : List SizeVariant → Nat → PhaseState → PhaseState
  | [], _, st => st
  | sv :: rest, i, st =>
    match vres.get? i with
    | none => { st with trace := st.trace ++ [.warn "processing-failed"] }
    | some vr =>
      let vfn := variantFilename filename sv.name
      match env.provider.putOutcome st.putIdx with
      | .error msg =>
        { st with putIdx := st.putIdx + 1,
                  trace := st.trace ++
                    [.putFail (.variant sv.name) vfn vr.buffer targetFolder msg,
                     .warn "processing-failed"] }
      | .ok h =>
        uploadVariantsLoop env filename targetFolder vres rest (i + 1)
          { st with putIdx := st.putIdx + 1,
                    trace := st.trace ++ [.putOk (.variant sv.name) vfn vr.buffer targetFolder h.key],
                    variants := st.variants ++ [⟨sv.name, h.url, h.key, h.size, vr.width, vr.height⟩] }

/-- The processing stage of `upload` (lines 331-396, the `shouldProcess`
branch): process the image, then (when sizes are configured) generate and
upload the variants. Any exception inside is caught at line 390: it is
logged as a warning and the state assigned so far is kept. -/
def processingPhase (cfg : MKConfig) (env : UploadEnv) (input : UploadInput)
    (targetFolder : String) : PhaseState :=
  let st0 : PhaseState := ⟨input.buffer, input.mimeType, none, [], [], 0⟩
  match env.processor.processOutcome with
  | .error _ => { st0 with trace := [.warn "processing-failed"] }
  | .ok processed =>
    let st1 : PhaseState :=
      ⟨processed.buffer, processed.mimeType, some (processed.width, processed.height), [], [], 0⟩
    if cfg.processing.sizes.isEmpty then st1
    else
      match env.processor.variantsOutcome with
      | .error _ => { st1 with trace := [.warn "processing-failed"] }
      | .ok vres => uploadVariantsLoop env input.filename targetFolder vres cfg.processing.sizes 0 st1

/-- The alt text used in the upload (line 294-308): the input's, or the
generated one when absent, the input is an image and generation is enabled. -/
def altOf (cfg : MKConfig) (env : UploadEnv) (input : UploadInput) : Option String :=
  if falsyStr input.alt && isImage input.mimeType && cfg.processing.generateAlt then
    some (env.genAlt input.filename)
  else input.alt

/-- The normalized target folder of an upload (line 311):
the input's folder when truthy, else the configured default. -/
def targetFolderOf (cfg : MKConfig) (input : UploadInput) : String :=
  normalizeFolderPath
    (match input.folder with
     | some f => if f == "" then defaultFolderOf cfg else f
     | none => defaultFolderOf cfg)

/-- The `shouldProcess` condition of `upload` (lines 326-329). -/
def shouldProcessF (cfg : MKConfig) (env : UploadEnv) (input : UploadInput) : Bool :=
  !input.skipProcessing && cfg.processing.enabled
    && env.processor.available && isImage input.mimeType

/-- The state after the (possibly skipped) processing stage: `finalBuffer`,
`finalMimeType`, `dimensions` and `variants` as left by lines 320-396. -/
def phaseOf (cfg : MKConfig) (env : UploadEnv) (input : UploadInput) : PhaseState :=
  if shouldProcessF cfg env input then
    processingPhase cfg env input (targetFolderOf cfg input)
  else ⟨input.buffer, input.mimeType, none, [], [], 0⟩

/-- The dimension fallback probe (lines 406-412): when processing left no
dimensions and the input is an image with a processor present, try
`getDimensions` (a throw is swallowed, leaving them absent). -/
def dimsOf (env : UploadEnv) (input : UploadInput) (st : PhaseState) : Option (Nat × Nat) :=
  match st.dims with
  | some d => some d
  | none =>
    if isImage input.mimeType && env.processor.available then env.processor.dimsOutcome
    else none

/-- The database record constructed at lines 415-428, after the repository's
stamping of `uploadedBy` and the tenant field. -/
def mkDoc (cfg : MKConfig) (env : UploadEnv) (input : UploadInput)
    (ctx : Option OperationContext) (orgId : Option String)
    (st : PhaseState) (h : StorageHandle) : MediaDoc :=
  { filename := basenameOf input.filename
    originalName := input.filename
    mimeType := st.finalMime
    size := h.size
    url := h.url
    key := h.key
    baseFolder := extractBaseFolder (targetFolderOf cfg input)
    folder := targetFolderOf cfg input
    alt := altOf cfg env input
    title := input.title
    dims := dimsOf env input st
    variants := if st.variants.isEmpty then none else some st.variants
    uploadedBy := ctx.bind (fun c => c.userId)
    orgStamp := orgId.map (fun o => (tenantField cfg.multiTenancy, o)) }

/-- The body of `upload`'s try block (lines 290-444): validation, alt text,
folder normalization and validation, processing stage, main storage put,
dimension probe, persistence. Returns the outcome together with the trace of
effects performed inside the try block. -/
def tryBody (cfg : MKConfig) (env : UploadEnv) (input : UploadInput)
    (ctx : Option OperationContext) (orgId : Option String) :
    Except MKError MediaDoc × List MKEv :=
  match validateFile cfg input.buffer input.mimeType with
  | .error e => (.error e, [])
  | .ok _ =>
    if !cfg.folders.baseFolders.isEmpty
        && !isValidFolder (targetFolderOf cfg input) cfg.folders.baseFolders then
      (.error .invalidFolder, [])
    else
      match env.provider.putOutcome (phaseOf cfg env input).putIdx with
      | .error msg =>
        (.error (.storage msg),
         (phaseOf cfg env input).trace ++
           [.putFail .main input.filename (phaseOf cfg env input).finalBuffer
             (targetFolderOf cfg input) msg])
      | .ok h =>
        match env.createOutcome with
        | .error msg =>
          (.error (.persistence msg),
           (phaseOf cfg env input).trace ++
             [.putOk .main input.filename (phaseOf cfg env input).finalBuffer
               (targetFolderOf cfg input) h.key,
              .createCall (mkDoc cfg env input ctx orgId (phaseOf cfg env input) h)])
        | .ok _ =>
          (.ok (mkDoc cfg env input ctx orgId (phaseOf cfg env input) h),
           (phaseOf cfg env input).trace ++
             [.putOk .main input.filename (phaseOf cfg env input).finalBuffer
               (targetFolderOf cfg input) h.key,
              .createCall (mkDoc cfg env input ctx orgId (phaseOf cfg env input) h)])

/-- Result and trace of one `upload` run. -/
structure UploadOutcome where
  result : Except MKError MediaDoc
  trace : List MKEv
deriving Repr

/-- `MediaKitImpl.upload`: the initialization check and tenant requirement run
before the `before:upload` emission; the try body runs between the `before`
emission and exactly one of `after:upload` (on success, before returning) or
`error:upload` (on failure, before rethrowing). -/
def upload (cfg : MKConfig) (env : UploadEnv) (input : UploadInput)
    (ctx : Option OperationContext) : UploadOutcome :=
  if !cfg.initialized then ⟨.error .notInitialized, []⟩
  else
    match requireTenant cfg ctx with
    | .error e => ⟨.error e, []⟩
    | .ok orgId =>
      match tryBody cfg env input ctx orgId with
      | (.ok doc, tr) => ⟨.ok doc, .beforeUpload :: (tr ++ [.afterUpload])⟩
      | (.error e, tr) => ⟨.error e, .beforeUpload :: (tr ++ [.errorUpload])⟩

/-! ## Repository model (`MediaRepository`, src/repository/media.repository.ts)

The mongoose collection is modelled as a list of documents in insertion
order; queries are equality / `$in` / anchored-prefix-`$regex` filters over a
document's fields. Sorting and pagination cursors are not modelled (the
verified properties do not depend on them); `limit` is applied as a prefix
truncation of the matching documents. -/

/-- A variant reference as stored on a media document (name and storage key). -/
structure VariantRef where
  name : String
  key : String
deriving DecidableEq, Repr

/-- A stored media document: the structurally-used fields (`_id`, `folder`,
`baseFolder`, `key`, `variants`) plus the remaining fields as a key-value
list (which notably holds the tenant field stamped by `create`). -/
structure DbDoc where
  id : String
  folder : String
  baseFolder : String
  key : String
  variants : List VariantRef
  fields : List (String × String)
deriving DecidableEq, Repr

/-- One filter constraint: equality, `$in`, or `$regex` with an anchored
escaped prefix (the only regex shape the repository builds). -/
inductive FilterVal where
  | eqv (v : String)
  | oneOf (vs : List String)
  | pre (p : String)
deriving DecidableEq, Repr

/-- String-valued field lookup on a document. Explicit `fields` entries take
precedence (they are written last by object spread in the source), then the
structural fields. -/
def DbDoc.lookupField (d : DbDoc) (k : String) : Option String :=
  match d.fields.lookup k with
  | some v => some v
  | none =>
    if k == "_id" then some d.id
    else if k == "folder" then some d.folder
    else if k == "baseFolder" then some d.baseFolder
    else none

def matchVal : FilterVal → String → Bool
  | .eqv v, s => s == v
  | .oneOf vs, s => vs.contains s
  | .pre p, s => strStarts p s

/-- Whether a document satisfies every constraint of a filter. -/
def matchesDoc (q : List (String × FilterVal)) (d : DbDoc) : Bool :=
  q.all fun kv =>
    match d.lookupField kv.1 with
    | some s => matchVal kv.2 s
    | none => false

/-- `MediaRepository.requireTenantContext`: when multi-tenancy is enabled, a
truthy `context.organizationId` is required, and the tenant field-value pair
is returned. -/
def requireTenantContext (mt : MultiTenancyConfig) (ctx : Option OperationContext) :
    Except MKError (Option (String × String)) :=
  if !mt.enabled then .ok none
  else
    let orgId := ctx.bind (fun c => c.organizationId)
    if falsyStr orgId then .error (.tenantRequired (tenantField mt))
    else .ok (some (tenantField mt, orgId.getD ""))

/-- Replace (or add) a key's entry in a field list; the new entry wins over
any previous one, as an object-spread override does. -/
def setField (fs : List (String × String)) (k v : String) : List (String × String) :=
  (fs.filter (fun kv => kv.1 != k)) ++ [(k, v)]

/-- `MediaRepository.buildFilters`: copy the caller's filters and, under
multi-tenancy, overwrite the tenant field with an equality constraint on the
context's organization id. -/
def buildFilters (mt : MultiTenancyConfig) (filters : List (String × FilterVal))
    (ctx : Option OperationContext) : Except MKError (List (String × FilterVal)) :=
  (requireTenantContext mt ctx).map fun t =>
    match t with
    | none => filters
    | some fo => (filters.filter (fun kv => kv.1 != fo.1)) ++ [(fo.1, .eqv fo.2)]

/-- `MediaRepository.create`: stamp `uploadedBy` from the context and, under
multi-tenancy, the tenant field, then save. -/
def repoCreate (mt : MultiTenancyConfig) (data : DbDoc) (ctx : Option OperationContext) :
    Except MKError DbDoc :=
  (requireTenantContext mt ctx).map fun t =>
    let d1 :=
      match ctx.bind (fun c => c.userId) with
      | some u => { data with fields := setField data.fields "uploadedBy" u }
      | none => data
    match t with
    | some fo => { d1 with fields := setField d1.fields fo.1 fo.2 }
    | none => d1

/-- `MediaRepository.getById`: `findOne` on `{_id: id}` plus the tenant filter. -/
def repoGetById (mt : MultiTenancyConfig) (store : List DbDoc) (id : String)
    (ctx : Option OperationContext) : Except MKError (Option DbDoc) :=
  (buildFilters mt [("_id", .eqv id)] ctx).map fun q => store.find? (matchesDoc q)

/-- `MediaRepository.getAll` (simple-list path): `find` under the combined
filters, truncated to `min limit maxLimit` documents. -/
def repoGetAll (mt : MultiTenancyConfig) (store : List DbDoc)
    (filters : List (String × FilterVal)) (limit maxLimit : Nat)
    (ctx : Option OperationContext) : Except MKError (List DbDoc) :=
  (buildFilters mt filters ctx).map fun q =>
    (store.filter (matchesDoc q)).take (min limit maxLimit)

/-- Update the first document satisfying `p` by `g`. -/
def updateFirstP (p : DbDoc → Bool) (g : DbDoc → DbDoc) : List DbDoc → List DbDoc
  | [] => []
  | d :: rest => if p d then g d :: rest else d :: updateFirstP p g rest

/-- `MediaRepository.update`: `findOneAndUpdate` on `{_id: id}` plus the
tenant filter; `g` is the applied `$set` payload. Returns the updated
document (with `new: true`) and the updated store. -/
def repoUpdate (mt : MultiTenancyConfig) (store : List DbDoc) (id : String)
    (g : DbDoc → DbDoc) (ctx : Option OperationContext) :
    Except MKError (Option DbDoc × List DbDoc) :=
  (buildFilters mt [("_id", .eqv id)] ctx).map fun q =>
    ((store.find? (matchesDoc q)).map g, updateFirstP (matchesDoc q) g store)

/-- Remove the first document satisfying `p`. -/
def removeFirstP (p : DbDoc → Bool) : List DbDoc → List DbDoc
  | [] => []
  | d :: rest => if p d then rest else d :: removeFirstP p rest

/-- `MediaRepository.delete`: `deleteOne` on `{_id: id}` plus the tenant
filter; returns `deletedCount > 0` and the updated store. -/
def repoDelete (mt : MultiTenancyConfig) (store : List DbDoc) (id : String)
    (ctx : Option OperationContext) : Except MKError (Bool × List DbDoc) :=
  (buildFilters mt [("_id", .eqv id)] ctx).map fun q =>
    ((store.find? (matchesDoc q)).isSome, removeFirstP (matchesDoc q) store)

/-- `MediaRepository.deleteMany`: `deleteMany` on `{_id: {$in: ids}}` plus the
tenant filter; returns the deleted count and the updated store. -/
def repoDeleteMany (mt : MultiTenancyConfig) (store : List DbDoc) (ids : List String)
    (ctx : Option OperationContext) : Except MKError (Nat × List DbDoc) :=
  (buildFilters mt [("_id", .oneOf ids)] ctx).map fun q =>
    ((store.filter (matchesDoc q)).length, store.filter (fun d => !matchesDoc q d))

/-- `MediaRepository.getByFolder`: `find` on `{folder}` plus the tenant
filter, truncated to `min limit maxLimit`. -/
def repoGetByFolder (mt : MultiTenancyConfig) (store : List DbDoc) (folder : String)
    (limit maxLimit : Nat) (ctx : Option OperationContext) : Except MKError (List DbDoc) :=
  (buildFilters mt [("folder", .eqv folder)] ctx).map fun q =>
    (store.filter (matchesDoc q)).take (min limit maxLimit)

/-- `MediaRepository.getFilesInFolder` (subfolders included, the default):
`find` on `{folder: {$regex: ^escaped(folderPath)}}` plus the tenant filter. -/
def repoGetFilesInFolder (mt : MultiTenancyConfig) (store : List DbDoc)
    (folderPath : String) (ctx : Option OperationContext) : Except MKError (List DbDoc) :=
  (buildFilters mt [("folder", .pre folderPath)] ctx).map fun q =>
    store.filter (matchesDoc q)

/-- `MediaRepository.moveToFolder`: `updateMany` on `{_id: {$in: ids}}` plus
the tenant filter, setting `folder` and its first segment as `baseFolder`;
returns the modified count and the updated store. -/
def repoMoveToFolder (mt : MultiTenancyConfig) (store : List DbDoc) (ids : List String)
    (targetFolder : String) (ctx : Option OperationContext) :
    Except MKError (Nat × List DbDoc) :=
  (buildFilters mt [("_id", .oneOf ids)] ctx).map fun q =>
    let bf := (splitSlash targetFolder).headD ""
    ((store.filter (matchesDoc q)).length,
     store.map fun d =>
       if matchesDoc q d then { d with folder := targetFolder, baseFolder := bf } else d)

/-! ## Deletion flow (`MediaKitImpl.delete`, src/media.ts lines 470-521) -/

/-- Result, resulting store, and trace of one `delete` run. -/
structure DeleteOutcome where
  result : Except MKError Bool
  store : List DbDoc
  trace : List MKEv
deriving Repr

/-- The main artifact's storage deletion (lines 480-488): the delete call,
with a logged warning when it throws. -/
def mainDelTr (env : UploadEnv) (key : String) : List MKEv :=
  match env.provider.delOutcome key with
  | .ok _ => [MKEv.storageDel key]
  | .error _ => [MKEv.storageDel key, .warn "delete-main-failed"]

/-- One variant's storage deletion (lines 492-503): the delete call, with a
logged warning when it throws; each variant's failure is caught on its own. -/
def varDelStep (env : UploadEnv) (acc : List MKEv) (v : VariantRef) : List MKEv :=
  acc ++
    match env.provider.delOutcome v.key with
    | .ok _ => [MKEv.storageDel v.key]
    | .error _ => [MKEv.storageDel v.key, .warn "delete-variant-failed"]

/-- `MediaKitImpl.delete`: look up the record; absent means `false` with no
further effect. Otherwise delete the main artifact from storage (a throw is
caught and logged), then every variant artifact (each throw caught and
logged individually), then the database record; the repository's result is
returned unchanged. -/
def deleteOp (cfg : MKConfig) (env : UploadEnv) (store : List DbDoc) (id : String)
    (ctx : Option OperationContext) : DeleteOutcome :=
  if !cfg.initialized then ⟨.error .notInitialized, store, []⟩
  else
    match repoGetById cfg.multiTenancy store id ctx with
    | .error e => ⟨.error e, store, []⟩
    | .ok none => ⟨.ok false, store, []⟩
    | .ok (some media) =>
      match repoDelete cfg.multiTenancy store id ctx with
      | .error e =>
        ⟨.error e, store, mainDelTr env media.key ++ media.variants.foldl (varDelStep env) []⟩
      | .ok bs =>
        ⟨.ok bs.1, bs.2, mainDelTr env media.key ++ media.variants.foldl (varDelStep env) []⟩

/-! ## Retry policy (`withRetry`, src/utils/retry.ts)

The retry utility's implementation file is not among the provided sources;
only its unit tests are (`tests/retry.test.ts`). Both definitions below are
therefore modelled from the spec (§4.2) and pinned by those tests. Delays
and jitter are irrelevant to invocation counts and are not modelled. -/

/-- Modelled from the spec: the default retryability classification of
`src/utils/retry.ts` (missing from src/): an error is retryable iff its
message indicates a network failure, timeout, throttling, or server fault. -/
def isRetryableError (msg : String) : Bool :=
  let m := (lowerStr msg).toList
  ["network", "econnreset", "econnrefused", "enotfound", "socket hang up",
   "timeout", "throttl", "rate limit", "slow down", "unavailable",
   "internal server", "500", "502", "503", "504", "429"].any
    fun p => charsInfix p.toList m

/-- Modelled from the spec: the attempt loop of `withRetry` of
`src/utils/retry.ts` (missing from src/). `op i` is the outcome of the
`i`-th invocation (0-based); `remaining` counts the retries still allowed.
Returns the final outcome and the number of invocations performed. -/
def withRetryAux (op : Nat → Except String α) (isR : String → Bool) :
    Nat → Nat → Except String α × Nat
  | attempt, remaining =>
    match op attempt with
    | .ok a => (.ok a, attempt + 1)
    | .error e =>
      if isR e then
        match remaining with
        | 0 => (.error e, attempt + 1)
        | r + 1 => withRetryAux op isR (attempt + 1) r
      else (.error e, attempt + 1)

/-- Modelled from the spec: `withRetry(op, {maxRetries, isRetryable})`:
invoke `op`, re-invoking on retryable failures until success, exhaustion of
`maxRetries` re-invocations, or a non-retryable failure (raised unchanged). -/
def withRetry (op : Nat → Except String α) (maxRetries : Nat)
    (isR : String → Bool) : Except String α × Nat :=
  withRetryAux op isR 0 maxRetries

/-! ## Concrete fixtures for counterexample runs -/

/-- A permissive configuration: initialized, no file-type or folder
restrictions, processing enabled with one configured size variant. -/
def cfgOneSize : MKConfig :=
  { initialized := true
    fileTypes := { allowed := [], maxSize := none }
    folders := { baseFolders := [], defaultFolder := "general", contentTypeMap := [] }
    processing := { enabled := true, sizes := [⟨"thumb"⟩], generateAlt := false }
    multiTenancy := { enabled := false, tenantKey := "" } }

/-- Like `cfgOneSize`, with two configured size variants. -/
def cfgTwoSizes : MKConfig :=
  { cfgOneSize with
      processing := { enabled := true, sizes := [⟨"thumb"⟩, ⟨"med"⟩], generateAlt := false } }

/-- A processor stub that decodes successfully and yields two variants. -/
def procOk : ProcessorStub :=
  { available := true
    processOutcome := .ok ⟨[9], "image/webp", 10, 20⟩
    variantsOutcome := .ok [⟨[1], 1, 1⟩, ⟨[2], 2, 2⟩]
    dimsOutcome := none }

/-- A small JPEG upload request. -/
def inpJpg : UploadInput :=
  { buffer := [7], filename := "a.jpg", mimeType := "image/jpeg" }

/-- Storage succeeds on the first put and fails fatally on every later one:
the single variant is stored, then the main artifact's put fails. -/
def envMainFails : UploadEnv :=
  { processor := procOk
    provider :=
      { putOutcome := fun i => if i == 0 then .ok ⟨"u0", "k0", 10⟩ else .error "boom"
        delOutcome := fun _ => .ok true }
    createOutcome := .ok ()
    genAlt := fun _ => "" }

/-- Storage fails only the second variant's put: the first variant and the
main artifact are stored and the record is persisted. -/
def envSecondVariantFails : UploadEnv :=
  { processor := procOk
    provider :=
      { putOutcome := fun i =>
          if i == 1 then .error "boom"
          else .ok ⟨"u" ++ toString i, "k" ++ toString i, 100 + i⟩
        delOutcome := fun _ => .ok true }
    createOutcome := .ok ()
    genAlt := fun _ => "" }

/-- Storage fails the first put with a transient (retryable) error and would
succeed on any re-attempt. -/
def envTransientFirstPut : UploadEnv :=
  { processor := procOk
    provider :=
      { putOutcome := fun i => if i == 0 then .error "network error" else .ok ⟨"u", "k", 9⟩
        delOutcome := fun _ => .ok true }
    createOutcome := .ok ()
    genAlt := fun _ => "" }

/-- A plain-text upload request (not an image, so processing is bypassed). -/
def inpTxt : UploadInput :=
  { buffer := [7], filename := "a.txt", mimeType := "text/plain" }

/-- `cfgOneSize` with multi-tenancy enabled. -/
def cfgTenant : MKConfig :=
  { cfgOneSize with multiTenancy := { enabled := true, tenantKey := "organizationId" } }

/-- The document persisted by the run in which the second variant's put
fails: its variant list holds only the first variant — a partial set. -/
def docPartial : MediaDoc :=
  { filename := "a.jpg", originalName := "a.jpg", mimeType := "image/webp",
    size := 102, url := "u2", key := "k2", baseFolder := "general",
    folder := "general", alt := none, title := none, dims := some (10, 20),
    variants := some [⟨"thumb", "u0", "k0", 100, 1, 1⟩],
    uploadedBy := none, orgStamp := none }

/-- Processing throws (undecodable bytes); storage and persistence succeed. -/
def envProcFails : UploadEnv :=
  { processor :=
      { available := true
        processOutcome := .error "unsupported image format"
        variantsOutcome := .ok []
        dimsOutcome := none }
    provider :=
      { putOutcome := fun _ => .ok ⟨"u", "k", 5⟩
        delOutcome := fun _ => .ok true }
    createOutcome := .ok ()
    genAlt := fun _ => "" }

/-- `cfgOneSize` with a restrictive allow-list and a maximum size. -/
def cfgStrict : MKConfig :=
  { cfgOneSize with fileTypes := { allowed := ["image/*"], maxSize := some 100 } }

/-- A provider whose storage deletions always throw. -/
def envDelFails : UploadEnv :=
  { processor := procOk
    provider :=
      { putOutcome := fun _ => .ok ⟨"u", "k", 5⟩
        delOutcome := fun _ => .error "storage down" }
    createOutcome := .ok ()
    genAlt := fun _ => "" }

/-- A stored media record with one variant. -/
def docStored : DbDoc :=
  { id := "id1", folder := "general", baseFolder := "general", key := "mk",
    variants := [⟨"thumb", "vk"⟩], fields := [] }

def MKEv.isMainPutFail : MKEv → Bool
  | .putFail .main _ _ _ _ => true
  | _ => false

/-! ## The refuted claims, as stated -/

/-- Claim C1 as stated: when some storage put succeeds and the run still
fails, every stored artifact is deleted before the error propagates, and
persistence is never invoked once any artifact's put has failed. -/
def rollbackClaim : Prop :=
  ∀ (cfg : MKConfig) (env : UploadEnv) (input : UploadInput) (ctx : Option OperationContext),
    (upload cfg env input ctx).result.isOk = false →
    (∃ r f b fo k, MKEv.putOk r f b fo k ∈ (upload cfg env input ctx).trace) →
    ((∀ r f b fo k, MKEv.putOk r f b fo k ∈ (upload cfg env input ctx).trace →
        MKEv.storageDel k ∈ (upload cfg env input ctx).trace)
     ∧ ((∃ r f b fo m, MKEv.putFail r f b fo m ∈ (upload cfg env input ctx).trace) →
        ∀ d, MKEv.createCall d ∉ (upload cfg env input ctx).trace))

/-- Claim C2 as stated: the persisted and returned variant list is
all-or-nothing — one entry per configured size, or none. -/
def allOrNothingClaim : Prop :=
  ∀ (cfg : MKConfig) (env : UploadEnv) (input : UploadInput) (ctx : Option OperationContext)
    (doc : MediaDoc),
    (upload cfg env input ctx).result = .ok doc →
    ((doc.variants.getD []).length = 0
     ∨ (doc.variants.getD []).length = cfg.processing.sizes.length)

/-- Claim C3 as stated (its observable content): every storage put is wrapped
in the retry policy, so an upload that fails with a retryable storage error
must have re-attempted that put — at least two put attempts occur. -/
def retriedPutsClaim : Prop :=
  ∀ (cfg : MKConfig) (env : UploadEnv) (input : UploadInput) (ctx : Option OperationContext)
    (msg : String),
    (upload cfg env input ctx).result = .error (.storage msg) →
    isRetryableError msg = true →
    2 ≤ ((upload cfg env input ctx).trace).countP MKEv.isPut

/-- Claim C5 as stated: every `upload()` call — regardless of input,
configuration, or outcome — emits exactly one `before:upload`, and exactly
one of `after:upload` / `error:upload`. -/
def eventsAlwaysClaim : Prop :=
  ∀ (cfg : MKConfig) (env : UploadEnv) (input : UploadInput) (ctx : Option OperationContext),
    ((upload cfg env input ctx).trace).countP MKEv.isBefore = 1 ∧
    ((upload cfg env input ctx).trace).countP MKEv.isAfter
      + ((upload cfg env input ctx).trace).countP MKEv.isErrorEv = 1

/-! ## Helper lemmas about traces -/

/-- The variant loop only appends variant put events and warnings. -/
theorem loop_countP (env : UploadEnv) (filename targetFolder : String)
    (vres : List VariantImage) (p : MKEv → Bool)
    (hOk : ∀ n f b fo k, p (.putOk (.variant n) f b fo k) = false)
    (hFail : ∀ n f b fo m, p (.putFail (.variant n) f b fo m) = false)
    (hWarn : ∀ t, p (.warn t) = false) :
    ∀ (svs : List SizeVariant) (i : Nat) (st : PhaseState),
      ((uploadVariantsLoop env filename targetFolder vres svs i st).trace).countP p
        = st.trace.countP p := by
  intro svs
  induction svs with
  | nil => intro i st; rfl
  | cons sv rest ih =>
    intro i st
    unfold uploadVariantsLoop
    cases hv : vres.get? i with
    | none => simp [List.countP_append, List.countP_cons, hWarn]
    | some vr =>
      cases hp : env.provider.putOutcome st.putIdx with
      | error msg => simp [List.countP_append, List.countP_cons, hFail, hWarn]
      | ok h => rw [ih]; simp [List.countP_append, List.countP_cons, hOk]

/-- The processing phase's trace consists of variant put events and warnings
only. -/
theorem phase_countP (cfg : MKConfig) (env : UploadEnv) (input : UploadInput)
    (targetFolder : String) (p : MKEv → Bool)
    (hOk : ∀ n f b fo k, p (.putOk (.variant n) f b fo k) = false)
    (hFail : ∀ n f b fo m, p (.putFail (.variant n) f b fo m) = false)
    (hWarn : ∀ t, p (.warn t) = false) :
    ((processingPhase cfg env input targetFolder).trace).countP p = 0 := by
  unfold processingPhase
  cases env.processor.processOutcome with
  | error e => simp [List.countP_cons, hWarn]
  | ok processed =>
    by_cases hs : cfg.processing.sizes.isEmpty
    · simp [hs]
    · simp only [hs, if_false, Bool.false_eq_true]
      cases env.processor.variantsOutcome with
      | error e => simp [List.countP_cons, hWarn]
      | ok vres =>
        rw [loop_countP env input.filename targetFolder vres p hOk hFail hWarn]
        rfl

/-- The phase state's trace consists of variant put events and warnings only. -/
theorem phaseOf_countP (cfg : MKConfig) (env : UploadEnv) (input : UploadInput)
    (p : MKEv → Bool)
    (hOk : ∀ n f b fo k, p (.putOk (.variant n) f b fo k) = false)
    (hFail : ∀ n f b fo m, p (.putFail (.variant n) f b fo m) = false)
    (hWarn : ∀ t, p (.warn t) = false) :
    ((phaseOf cfg env input).trace).countP p = 0 := by
  unfold phaseOf
  by_cases hs : shouldProcessF cfg env input
  · simp only [hs, if_true]
    exact phase_countP cfg env input (targetFolderOf cfg input) p hOk hFail hWarn
  · simp [hs]

/-- The variant loop performs at most one storage put per remaining size. -/
theorem loop_puts_le (env : UploadEnv) (filename targetFolder : String)
    (vres : List VariantImage) :
    ∀ (svs : List SizeVariant) (i : Nat) (st : PhaseState),
      ((uploadVariantsLoop env filename targetFolder vres svs i st).trace).countP MKEv.isPut
        ≤ st.trace.countP MKEv.isPut + svs.length := by
  intro svs
  induction svs with
  | nil => intro i st; simp [uploadVariantsLoop]
  | cons sv rest ih =>
    intro i st
    unfold uploadVariantsLoop
    cases hv : vres.get? i with
    | none => simp [List.countP_append, List.countP_cons, MKEv.isPut]
    | some vr =>
      cases hp : env.provider.putOutcome st.putIdx with
      | error msg =>
        simp [List.countP_append, List.countP_cons, MKEv.isPut]
      | ok h =>
        refine le_trans (ih (i + 1) _) ?_
        simp [List.countP_append, List.countP_cons, MKEv.isPut]
        omega

/-- The processing phase performs at most one storage put per configured size. -/
theorem phaseOf_puts_le (cfg : MKConfig) (env : UploadEnv) (input : UploadInput) :
    ((phaseOf cfg env input).trace).countP MKEv.isPut ≤ cfg.processing.sizes.length := by
  unfold phaseOf
  by_cases hs : shouldProcessF cfg env input
  · simp only [hs, if_true]
    unfold processingPhase
    cases env.processor.processOutcome with
    | error e => simp [MKEv.isPut]
    | ok processed =>
      by_cases hz : cfg.processing.sizes.isEmpty
      · simp [hz]
      · simp only [hz, if_false, Bool.false_eq_true]
        cases env.processor.variantsOutcome with
        | error e => simp [MKEv.isPut]
        | ok vres =>
          have := loop_puts_le env input.filename (targetFolderOf cfg input) vres
            cfg.processing.sizes 0 ⟨processed.buffer, processed.mimeType,
              some (processed.width, processed.height), [], [], 0⟩
          simpa using this
  · simp [hs]

/-- The variants accumulated by the loop extend the accumulator with the
stored `GeneratedVariant`s of an initial segment of the remaining sizes. -/
theorem loop_names (env : UploadEnv) (filename targetFolder : String)
    (vres : List VariantImage) :
    ∀ (svs : List SizeVariant) (i : Nat) (st : PhaseState),
      ∃ m, m ≤ svs.length ∧
        ((uploadVariantsLoop env filename targetFolder vres svs i st).variants).map
            (fun v => v.name)
          = st.variants.map (fun v => v.name) ++ ((svs.map (fun sv => sv.name)).take m) := by
  intro svs
  induction svs with
  | nil => intro i st; exact ⟨0, by simp [uploadVariantsLoop]⟩
  | cons sv rest ih =>
    intro i st
    unfold uploadVariantsLoop
    cases hv : vres.get? i with
    | none => exact ⟨0, by simp⟩
    | some vr =>
      cases hp : env.provider.putOutcome st.putIdx with
      | error msg => exact ⟨0, by simp⟩
      | ok h =>
        obtain ⟨m, hm, hnames⟩ := ih (i + 1)
          { st with putIdx := st.putIdx + 1,
                    trace := st.trace ++
                      [.putOk (.variant sv.name) (variantFilename filename sv.name)
                        vr.buffer targetFolder h.key],
                    variants := st.variants ++ [⟨sv.name, h.url, h.key, h.size, vr.width, vr.height⟩] }
        refine ⟨m + 1, by simpa using hm, ?_⟩
        simpa [List.take_succ_cons] using hnames

/-- The phase state's variant names form an initial segment of the configured
size names. -/
theorem phaseOf_names (cfg : MKConfig) (env : UploadEnv) (input : UploadInput) :
    ∃ m, m ≤ cfg.processing.sizes.length ∧
      ((phaseOf cfg env input).variants).map (fun v => v.name)
        = (cfg.processing.sizes.map (fun sv => sv.name)).take m := by
  unfold phaseOf
  by_cases hs : shouldProcessF cfg env input
  · simp only [hs, if_true]
    unfold processingPhase
    cases env.processor.processOutcome with
    | error e => exact ⟨0, by simp⟩
    | ok processed =>
      by_cases hz : cfg.processing.sizes.isEmpty
      · exact ⟨0, by simp [hz]⟩
      · simp only [hz, if_false, Bool.false_eq_true]
        cases env.processor.variantsOutcome with
        | error e => exact ⟨0, by simp⟩
        | ok vres =>
          obtain ⟨m, hm, hnames⟩ := loop_names env input.filename (targetFolderOf cfg input) vres
            cfg.processing.sizes 0 ⟨processed.buffer, processed.mimeType,
              some (processed.width, processed.height), [], [], 0⟩
          exact ⟨m, hm, by simpa using hnames⟩
  · exact ⟨0, by simp [hs]⟩

/-- When the whole image-processing step fails, the phase keeps the original
buffer and MIME type and no variants. -/
theorem phaseOf_process_error (cfg : MKConfig) (env : UploadEnv) (input : UploadInput)
    (msg : String) (herr : env.processor.processOutcome = .error msg) :
    (phaseOf cfg env input).finalBuffer = input.buffer ∧
    (phaseOf cfg env input).finalMime = input.mimeType ∧
    (phaseOf cfg env input).variants = [] ∧
    (phaseOf cfg env input).dims = none ∧
    (phaseOf cfg env input).putIdx = 0 := by
  unfold phaseOf
  by_cases hs : shouldProcessF cfg env input
  · simp [hs, processingPhase, herr]
  · simp [hs]

/-- Events of a kind never produced by the try body are absent from its
trace. -/
theorem tryBody_countP (cfg : MKConfig) (env : UploadEnv) (input : UploadInput)
    (ctx : Option OperationContext) (orgId : Option String) (p : MKEv → Bool)
    (hOk : ∀ r f b fo k, p (.putOk r f b fo k) = false)
    (hFail : ∀ r f b fo m, p (.putFail r f b fo m) = false)
    (hWarn : ∀ t, p (.warn t) = false)
    (hCreate : ∀ d, p (.createCall d) = false) :
    ((tryBody cfg env input ctx orgId).2).countP p = 0 := by
  have hphase : ((phaseOf cfg env input).trace).countP p = 0 :=
    phaseOf_countP cfg env input p (fun n => hOk (.variant n)) (fun n => hFail (.variant n)) hWarn
  unfold tryBody
  cases hval : validateFile cfg input.buffer input.mimeType with
  | error e => simp
  | ok u =>
    split
    · simp
    · cases hput : env.provider.putOutcome (phaseOf cfg env input).putIdx with
      | error msg => split <;> simp [List.countP_append, List.countP_cons, hFail, hphase]
      | ok h =>
        cases hc : env.createOutcome with
        | error m => split <;> simp [List.countP_append, List.countP_cons, hOk, hCreate, hphase]
        | ok u2 => split <;> simp [List.countP_append, List.countP_cons, hOk, hCreate, hphase]

/-- The try body calls persistence exactly as often as the main artifact's
put succeeds (i.e. once when it does, never otherwise). -/
theorem tryBody_create_eq_mainPut (cfg : MKConfig) (env : UploadEnv) (input : UploadInput)
    (ctx : Option OperationContext) (orgId : Option String) :
    ((tryBody cfg env input ctx orgId).2).countP MKEv.isCreate
      = ((tryBody cfg env input ctx orgId).2).countP MKEv.isMainPutOk := by
  have hc : ((phaseOf cfg env input).trace).countP MKEv.isCreate = 0 :=
    phaseOf_countP cfg env input MKEv.isCreate (fun _ _ _ _ _ => rfl) (fun _ _ _ _ _ => rfl)
      (fun _ => rfl)
  have hm : ((phaseOf cfg env input).trace).countP MKEv.isMainPutOk = 0 :=
    phaseOf_countP cfg env input MKEv.isMainPutOk (fun _ _ _ _ _ => rfl) (fun _ _ _ _ _ => rfl)
      (fun _ => rfl)
  unfold tryBody
  cases hval : validateFile cfg input.buffer input.mimeType with
  | error e => simp
  | ok u =>
    split
    · simp
    · cases hput : env.provider.putOutcome (phaseOf cfg env input).putIdx with
      | error msg =>
        split <;>
          simp [List.countP_append, List.countP_cons, MKEv.isCreate, MKEv.isMainPutOk, hc, hm]
      | ok h =>
        cases hcr : env.createOutcome with
        | error m =>
          split <;>
            simp [List.countP_append, List.countP_cons, MKEv.isCreate, MKEv.isMainPutOk, hc, hm]
        | ok u2 =>
          split <;>
            simp [List.countP_append, List.countP_cons, MKEv.isCreate, MKEv.isMainPutOk, hc, hm]

/-- Errors thrown by `validateFile` are the two validation errors. -/
theorem validateFile_error_shape (cfg : MKConfig) (b : Buffer) (m : String) (e : MKError)
    (h : validateFile cfg b m = .error e) : e.isValidation = true := by
  unfold validateFile at h
  split at h
  · cases h; rfl
  · split at h
    · split at h
      · cases h; rfl
      · cases h
    · cases h

/-- Case characterization of the try body: it fails during validation with an
empty trace, or the main put fails fatally right after the processing phase,
or the main put succeeds, persistence is called with the constructed record,
and the outcome is that record or the persistence failure. -/
theorem tryBody_char (cfg : MKConfig) (env : UploadEnv) (input : UploadInput)
    (ctx : Option OperationContext) (orgId : Option String) :
    (∃ e, tryBody cfg env input ctx orgId = (.error e, [])
       ∧ (e.isValidation = true ∨ e = .invalidFolder))
    ∨ (∃ msg, env.provider.putOutcome (phaseOf cfg env input).putIdx = .error msg ∧
        tryBody cfg env input ctx orgId
          = (.error (.storage msg),
             (phaseOf cfg env input).trace ++
               [.putFail .main input.filename (phaseOf cfg env input).finalBuffer
                 (targetFolderOf cfg input) msg]))
    ∨ (∃ hst, env.provider.putOutcome (phaseOf cfg env input).putIdx = .ok hst ∧
        (tryBody cfg env input ctx orgId).2
          = (phaseOf cfg env input).trace ++
              [.putOk .main input.filename (phaseOf cfg env input).finalBuffer
                (targetFolderOf cfg input) hst.key,
               .createCall (mkDoc cfg env input ctx orgId (phaseOf cfg env input) hst)] ∧
        ((tryBody cfg env input ctx orgId).1
            = .ok (mkDoc cfg env input ctx orgId (phaseOf cfg env input) hst)
         ∨ ∃ m, env.createOutcome = .error m ∧
            (tryBody cfg env input ctx orgId).1 = .error (.persistence m))) := by
  unfold tryBody
  cases hval : validateFile cfg input.buffer input.mimeType with
  | error e =>
    exact Or.inl ⟨e, rfl, Or.inl (validateFile_error_shape cfg input.buffer input.mimeType e hval)⟩
  | ok u =>
    by_cases hfold : (!cfg.folders.baseFolders.isEmpty
        && !isValidFolder (targetFolderOf cfg input) cfg.folders.baseFolders) = true
    · refine Or.inl ⟨.invalidFolder, ?_, Or.inr rfl⟩
      simp [hfold]
    · cases hput : env.provider.putOutcome (phaseOf cfg env input).putIdx with
      | error msg =>
        refine Or.inr (Or.inl ⟨msg, rfl, ?_⟩)
        simp [hfold]
      | ok hst =>
        refine Or.inr (Or.inr ⟨hst, rfl, ?_, ?_⟩)
        · cases hc : env.createOutcome with
          | error m => simp [hfold, hc]
          | ok u2 => simp [hfold, hc]
        · cases hc : env.createOutcome with
          | error m => exact Or.inr ⟨m, rfl, by simp [hfold, hc]⟩
          | ok u2 => exact Or.inl (by simp [hfold, hc])

/-- Case characterization of `upload`: rejected before the `before:upload`
emission with an empty trace (uninitialized or missing tenant), or a try-body
run bracketed by `before:upload` and exactly one of `after:upload` /
`error:upload`. -/
theorem upload_char (cfg : MKConfig) (env : UploadEnv) (input : UploadInput)
    (ctx : Option OperationContext) :
    (cfg.initialized = false ∧ upload cfg env input ctx = ⟨.error .notInitialized, []⟩)
    ∨ (∃ e, cfg.initialized = true ∧ requireTenant cfg ctx = .error e ∧
        upload cfg env input ctx = ⟨.error e, []⟩)
    ∨ (∃ orgId, cfg.initialized = true ∧ requireTenant cfg ctx = .ok orgId ∧
        ((∃ doc tr, tryBody cfg env input ctx orgId = (.ok doc, tr) ∧
            upload cfg env input ctx = ⟨.ok doc, .beforeUpload :: (tr ++ [.afterUpload])⟩)
         ∨ (∃ e tr, tryBody cfg env input ctx orgId = (.error e, tr) ∧
            upload cfg env input ctx = ⟨.error e, .beforeUpload :: (tr ++ [.errorUpload])⟩))) := by
  unfold upload
  cases hinit : cfg.initialized with
  | false => exact Or.inl ⟨rfl, by simp⟩
  | true =>
    refine Or.inr ?_
    cases ht : requireTenant cfg ctx with
    | error e => exact Or.inl ⟨e, rfl, rfl, by simp⟩
    | ok orgId =>
      refine Or.inr ⟨orgId, rfl, rfl, ?_⟩
      rcases htb : tryBody cfg env input ctx orgId with ⟨res, tr⟩
      cases res with
      | ok doc => exact Or.inl ⟨doc, tr, rfl, by simp [htb]⟩
      | error e => exact Or.inr ⟨e, tr, rfl, by simp [htb]⟩

/-- The document's variant-name list of a successful upload is an initial
segment of the configured size names. -/
theorem mkDoc_variants_names (cfg : MKConfig) (env : UploadEnv) (input : UploadInput)
    (ctx : Option OperationContext) (orgId : Option String) (hst : StorageHandle) :
    ∃ m, m ≤ cfg.processing.sizes.length ∧
      ((mkDoc cfg env input ctx orgId (phaseOf cfg env input) hst).variants.getD []).map
          (fun v => v.name)
        = (cfg.processing.sizes.map (fun sv => sv.name)).take m := by
  obtain ⟨m, hm, hn⟩ := phaseOf_names cfg env input
  by_cases hz : (phaseOf cfg env input).variants.isEmpty
  · exact ⟨0, Nat.zero_le _, by simp [mkDoc, hz]⟩
  · exact ⟨m, hm, by simp [mkDoc, hz, hn]⟩

/-! ## Claim C1 — rollback of stored artifacts -/

/-- Claim C1 counterexample: one configured size variant whose put succeeds
(`k0` stored), then the main artifact's put fails fatally. The call rejects,
yet the stored variant is never deleted, refuting the rollback claim. -/
theorem no_rollback_counterexample : ¬ rollbackClaim := by
  intro h
  have h2 := (h cfgOneSize envMainFails inpJpg none (by decide)
    ⟨.variant "thumb", "a-thumb.jpg", [1], "general", "k0", by decide⟩).1
  have h3 := h2 (.variant "thumb") "a-thumb.jpg" [1] "general" "k0" (by decide)
  exact absurd h3 (by decide)

/-- **C1** (amended): `upload` never deletes anything from storage — on fatal
failure after a successful store, no stored artifact is rolled back — and
persistence is invoked exactly as often as the main artifact's put succeeds,
so a request whose variant put failed (a partially-uploaded request) is
still persisted whenever the main put succeeds. -/
theorem upload_no_rollback (cfg : MKConfig) (env : UploadEnv) (input : UploadInput)
    (ctx : Option OperationContext) :
    ((upload cfg env input ctx).trace).countP MKEv.isDel = 0 ∧
    ((upload cfg env input ctx).trace).countP MKEv.isCreate
      = ((upload cfg env input ctx).trace).countP MKEv.isMainPutOk := by
  rcases upload_char cfg env input ctx with ⟨_, hu⟩ | ⟨e, _, _, hu⟩ | ⟨orgId, _, _, hcase⟩
  · rw [hu]; exact ⟨rfl, rfl⟩
  · rw [hu]; exact ⟨rfl, rfl⟩
  · have hdel := tryBody_countP cfg env input ctx orgId MKEv.isDel
      (fun _ _ _ _ _ => rfl) (fun _ _ _ _ _ => rfl) (fun _ => rfl) (fun _ => rfl)
    have hce := tryBody_create_eq_mainPut cfg env input ctx orgId
    rcases hcase with ⟨doc, tr, htb, hu⟩ | ⟨e, tr, htb, hu⟩ <;>
      rw [htb] at hdel hce <;> rw [hu] <;> constructor <;>
      simp [List.countP_cons, List.countP_append, MKEv.isDel, MKEv.isCreate,
        MKEv.isMainPutOk, hdel, hce]

/-! ## Claim C2 — all-or-nothing variants -/

/-- Claim C2 counterexample: two configured sizes; the second variant's put
fails (swallowed by the processing catch), the main put succeeds, and the
persisted document carries exactly one variant — a partial set. -/
theorem partial_variants_counterexample : ¬ allOrNothingClaim := by
  intro h
  have h2 := h cfgTwoSizes envSecondVariantFails inpJpg none docPartial (by decide)
  rcases h2 with h2 | h2 <;> exact absurd h2 (by decide)

/-- **C2** (amended): the persisted variant list of a successful upload is an
initial segment, in order, of the configured sizes (full on total success,
empty on a processing failure, and truncated at the first failing variant
put); in particular a whole-processing failure yields no variants. -/
theorem upload_variants_initial_segment (cfg : MKConfig) (env : UploadEnv)
    (input : UploadInput) (ctx : Option OperationContext) (doc : MediaDoc)
    (hok : (upload cfg env input ctx).result = .ok doc) :
    (∃ m, m ≤ cfg.processing.sizes.length ∧
      (doc.variants.getD []).map (fun v => v.name)
        = (cfg.processing.sizes.map (fun sv => sv.name)).take m) ∧
    (∀ msg, env.processor.processOutcome = .error msg → doc.variants = none) := by
  rcases upload_char cfg env input ctx with ⟨_, hu⟩ | ⟨e, _, _, hu⟩ | ⟨orgId, _, _, hcase⟩
  · rw [hu] at hok; cases hok
  · rw [hu] at hok; cases hok
  · rcases hcase with ⟨doc2, tr, htb, hu⟩ | ⟨e, tr, htb, hu⟩
    · rw [hu] at hok
      have hdoc2 : doc2 = doc := by cases hok; rfl
      subst hdoc2
      rcases tryBody_char cfg env input ctx orgId with ⟨e, hc, _⟩ | ⟨msg, _, hc⟩ |
        ⟨hst, hput, _, hres⟩
      · rw [htb] at hc; cases hc
      · rw [htb] at hc; cases hc
      · have hres2 : doc2 = mkDoc cfg env input ctx orgId (phaseOf cfg env input) hst := by
          rcases hres with hres | ⟨m, _, hres⟩ <;> rw [htb] at hres
          · cases hres; rfl
          · cases hres
        subst hres2
        constructor
        · exact mkDoc_variants_names cfg env input ctx orgId hst
        · intro msg hmsg
          have hv := (phaseOf_process_error cfg env input msg hmsg).2.2.1
          simp [mkDoc, hv]
    · rw [hu] at hok; cases hok

/-- Witness for the amended C2 at a concrete successful run (the very run of
the counterexample: one stored variant out of two configured). -/
theorem upload_variants_initial_segment_witness :
    (∃ m, m ≤ cfgTwoSizes.processing.sizes.length ∧
      (docPartial.variants.getD []).map (fun v => v.name)
        = (cfgTwoSizes.processing.sizes.map (fun sv => sv.name)).take m) ∧
    (∀ msg, envSecondVariantFails.processor.processOutcome = .error msg →
      docPartial.variants = none) :=
  upload_variants_initial_segment cfgTwoSizes envSecondVariantFails inpJpg none docPartial
    (by decide)

/-! ## Claim C3 — semaphore-gated, retry-wrapped puts -/

/-- Claim C3 counterexample: the main put fails once with a retryable
(network) error while every later attempt would succeed; the call
nevertheless rejects after a single put attempt — no retry wrapping exists
in `upload`. -/
theorem no_retry_counterexample : ¬ retriedPutsClaim := by
  intro h
  have h2 := h cfgOneSize envTransientFirstPut inpTxt none "network error" (by decide) (by decide)
  exact absurd h2 (by decide)

/-- **C3** (amended): `upload` performs at most one storage put per artifact
— at most one per configured size plus one for the main artifact, with no
retry re-attempts — and the first failure of the main artifact's put is
immediately fatal: the call rejects with exactly that storage error. -/
theorem upload_single_attempt_puts (cfg : MKConfig) (env : UploadEnv) (input : UploadInput)
    (ctx : Option OperationContext) :
    ((upload cfg env input ctx).trace).countP MKEv.isPut ≤ cfg.processing.sizes.length + 1 ∧
    (∀ f b fo msg, MKEv.putFail .main f b fo msg ∈ (upload cfg env input ctx).trace →
      (upload cfg env input ctx).result = .error (.storage msg)) := by
  have hphasefail := phaseOf_countP cfg env input MKEv.isMainPutFail
    (fun _ _ _ _ _ => rfl) (fun _ _ _ _ _ => rfl) (fun _ => rfl)
  have hphaseput := phaseOf_puts_le cfg env input
  rcases upload_char cfg env input ctx with ⟨_, hu⟩ | ⟨e, _, _, hu⟩ | ⟨orgId, _, _, hcase⟩
  · rw [hu]; exact ⟨Nat.zero_le _, fun f b fo msg hmem => absurd hmem (by simp)⟩
  · rw [hu]; exact ⟨Nat.zero_le _, fun f b fo msg hmem => absurd hmem (by simp)⟩
  · rcases tryBody_char cfg env input ctx orgId with ⟨e, hc, _⟩ | ⟨msg, hput, hc⟩ |
      ⟨hst, hput, hctr, hres⟩
    · rcases hcase with ⟨doc, tr, htb, hu⟩ | ⟨e2, tr, htb, hu⟩
      · rw [hc] at htb; cases htb
      · rw [hc] at htb
        have h1 : e2 = e := by cases htb; rfl
        have h2 : tr = [] := by cases htb; rfl
        subst h1; subst h2
        rw [hu]
        exact ⟨by simp [MKEv.isPut], fun f b fo msg hmem => by simp at hmem⟩
    · rcases hcase with ⟨doc, tr, htb, hu⟩ | ⟨e2, tr, htb, hu⟩
      · rw [hc] at htb; cases htb
      · rw [hc] at htb
        have h1 : e2 = .storage msg := by cases htb; rfl
        have h2 : tr = (phaseOf cfg env input).trace ++
            [.putFail .main input.filename (phaseOf cfg env input).finalBuffer
              (targetFolderOf cfg input) msg] := by cases htb; rfl
        subst h1; subst h2
        rw [hu]
        constructor
        · simp only [List.countP_cons, List.countP_append]
          simp [MKEv.isPut]
          omega
        · intro f b fo msg2 hmem
          simp only [List.mem_cons, List.mem_append, List.mem_singleton,
            List.not_mem_nil, or_false, false_or] at hmem
          rcases hmem with hmem | (hmem | hmem) | hmem
        -- impossible: event shapes
          · cases hmem
          · have hcontra := (List.countP_eq_zero.mp hphasefail) _ hmem
            simp [MKEv.isMainPutFail] at hcontra
          · injection hmem with hr h1 h2 h3 h4
            subst h4
            rfl
          · cases hmem
    · rcases hcase with ⟨doc, tr, htb, hu⟩ | ⟨e2, tr, htb, hu⟩
      · have h2 : tr = (phaseOf cfg env input).trace ++
            [.putOk .main input.filename (phaseOf cfg env input).finalBuffer
              (targetFolderOf cfg input) hst.key,
             .createCall (mkDoc cfg env input ctx orgId (phaseOf cfg env input) hst)] := by
          rw [htb] at hctr; exact hctr
        subst h2
        rw [hu]
        constructor
        · simp only [List.countP_cons, List.countP_append]
          simp [MKEv.isPut]
          omega
        · intro f b fo msg2 hmem
          simp only [List.mem_cons, List.mem_append, List.mem_singleton,
            List.not_mem_nil, or_false, false_or] at hmem
          rcases hmem with hmem | (hmem | hmem) | hmem
          · cases hmem
          · have hcontra := (List.countP_eq_zero.mp hphasefail) _ hmem
            simp [MKEv.isMainPutFail] at hcontra
          · rcases hmem with hmem | hmem
            · cases hmem
            · cases hmem
          · cases hmem
      · have h2 : tr = (phaseOf cfg env input).trace ++
            [.putOk .main input.filename (phaseOf cfg env input).finalBuffer
              (targetFolderOf cfg input) hst.key,
             .createCall (mkDoc cfg env input ctx orgId (phaseOf cfg env input) hst)] := by
          rw [htb] at hctr; exact hctr
        subst h2
        rw [hu]
        constructor
        · simp only [List.countP_cons, List.countP_append]
          simp [MKEv.isPut]
          omega
        · intro f b fo msg2 hmem
          simp only [List.mem_cons, List.mem_append, List.mem_singleton,
            List.not_mem_nil, or_false, false_or] at hmem
          rcases hmem with hmem | (hmem | hmem) | hmem
          · cases hmem
          · have hcontra := (List.countP_eq_zero.mp hphasefail) _ hmem
            simp [MKEv.isMainPutFail] at hcontra
          · rcases hmem with hmem | hmem
            · cases hmem
            · cases hmem
          · cases hmem

/-- Witness for the amended C3 at a concrete failing run: one stored variant,
then the main put fails with `boom` and the call rejects with that error. -/
theorem upload_single_attempt_puts_witness :
    ((upload cfgOneSize envMainFails inpJpg none).trace).countP MKEv.isPut
      ≤ cfgOneSize.processing.sizes.length + 1 ∧
    (upload cfgOneSize envMainFails inpJpg none).result = .error (.storage "boom") :=
  ⟨(upload_single_attempt_puts cfgOneSize envMainFails inpJpg none).1,
   (upload_single_attempt_puts cfgOneSize envMainFails inpJpg none).2
     "a.jpg" [9] "general" "boom" (by decide)⟩

/-! ## Claim C5 — lifecycle event discipline -/

/-- Claim C5 counterexample: with multi-tenancy enabled and no organization
id in the context, `upload` throws before emitting anything: no
`before:upload`, no `after:upload`, no `error:upload`. -/
theorem missing_tenant_no_events_counterexample : ¬ eventsAlwaysClaim := by
  intro h
  have h2 := (h cfgTenant envMainFails inpJpg none).1
  exact absurd h2 (by decide)

/-- **C5** (amended): once `upload` passes its initialization and tenant
guards (the emissions happen inside that region), the trace carries exactly
one `before:upload` and exactly one of `after:upload` / `error:upload`, with
`after:upload` exactly on success; a call rejected by those guards emits no
events at all. -/
theorem upload_event_discipline (cfg : MKConfig) (env : UploadEnv) (input : UploadInput)
    (ctx : Option OperationContext)
    (hinit : cfg.initialized = true) (ht : (requireTenant cfg ctx).isOk = true) :
    ((upload cfg env input ctx).trace).countP MKEv.isBefore = 1 ∧
    ((upload cfg env input ctx).trace).countP MKEv.isAfter
      + ((upload cfg env input ctx).trace).countP MKEv.isErrorEv = 1 ∧
    ((upload cfg env input ctx).result.isOk = true ↔
      ((upload cfg env input ctx).trace).countP MKEv.isAfter = 1) := by
  rcases upload_char cfg env input ctx with ⟨hbad, hu⟩ | ⟨e, _, hbad, hu⟩ | ⟨orgId, _, _, hcase⟩
  · rw [hbad] at hinit; cases hinit
  · rw [hbad] at ht; cases ht
  · have hb := tryBody_countP cfg env input ctx orgId MKEv.isBefore
      (fun _ _ _ _ _ => rfl) (fun _ _ _ _ _ => rfl) (fun _ => rfl) (fun _ => rfl)
    have ha := tryBody_countP cfg env input ctx orgId MKEv.isAfter
      (fun _ _ _ _ _ => rfl) (fun _ _ _ _ _ => rfl) (fun _ => rfl) (fun _ => rfl)
    have he := tryBody_countP cfg env input ctx orgId MKEv.isErrorEv
      (fun _ _ _ _ _ => rfl) (fun _ _ _ _ _ => rfl) (fun _ => rfl) (fun _ => rfl)
    rcases hcase with ⟨doc, tr, htb, hu⟩ | ⟨e, tr, htb, hu⟩ <;>
      rw [htb] at hb ha he <;> rw [hu] <;>
      refine ⟨?_, ?_, ?_⟩ <;>
      simp [List.countP_cons, List.countP_append, MKEv.isBefore, MKEv.isAfter,
        MKEv.isErrorEv, Except.isOk, Except.toBool, hb, ha, he]

/-- Witness for the amended C5 at a concrete failing run: the guards pass,
and the rejection carries one `before:upload` and one `error:upload`. -/
theorem upload_event_discipline_witness :
    ((upload cfgOneSize envMainFails inpJpg none).trace).countP MKEv.isBefore = 1 ∧
    ((upload cfgOneSize envMainFails inpJpg none).trace).countP MKEv.isAfter
      + ((upload cfgOneSize envMainFails inpJpg none).trace).countP MKEv.isErrorEv = 1 ∧
    ((upload cfgOneSize envMainFails inpJpg none).result.isOk = true ↔
      ((upload cfgOneSize envMainFails inpJpg none).trace).countP MKEv.isAfter = 1) :=
  upload_event_discipline cfgOneSize envMainFails inpJpg none (by decide) (by decide)

/-- When processing is attempted and the processor throws, the phase keeps
the original buffer and MIME type, no variants, and only a warning in its
trace. -/
theorem phaseOf_sp_process_error (cfg : MKConfig) (env : UploadEnv) (input : UploadInput)
    (pm : String) (hsp : shouldProcessF cfg env input = true)
    (herr : env.processor.processOutcome = .error pm) :
    phaseOf cfg env input
      = ⟨input.buffer, input.mimeType, none, [], [.warn "processing-failed"], 0⟩ := by
  unfold phaseOf processingPhase
  simp [hsp, herr]

/-- A validation failure short-circuits the try body with an empty trace. -/
theorem tryBody_validation_error (cfg : MKConfig) (env : UploadEnv) (input : UploadInput)
    (ctx : Option OperationContext) (orgId : Option String) (e : MKError)
    (h : validateFile cfg input.buffer input.mimeType = .error e) :
    tryBody cfg env input ctx orgId = (.error e, []) := by
  unfold tryBody
  rw [h]

/-- A disallowed MIME type or an oversized buffer makes `validateFile` throw
a validation error. -/
theorem validateFile_rejects (cfg : MKConfig) (b : Buffer) (m : String)
    (hbad : (cfg.fileTypes.allowed ≠ [] ∧ isAllowedMimeType m cfg.fileTypes.allowed = false)
      ∨ (∃ M, cfg.fileTypes.maxSize = some M ∧ b.length > M)) :
    ∃ e, validateFile cfg b m = .error e ∧ e.isValidation = true := by
  unfold validateFile
  rcases hbad with ⟨hne, hnotallowed⟩ | ⟨M, hM, hlen⟩
  · have hc : (!cfg.fileTypes.allowed.isEmpty && !isAllowedMimeType m cfg.fileTypes.allowed)
        = true := by
      simp [hnotallowed, List.isEmpty_iff, hne]
    exact ⟨.validationMime m, by simp [hc], rfl⟩
  · by_cases hmime : (!cfg.fileTypes.allowed.isEmpty
        && !isAllowedMimeType m cfg.fileTypes.allowed) = true
    · exact ⟨.validationMime m, by simp [hmime], rfl⟩
    · refine ⟨.validationSize, ?_, rfl⟩
      simp only [Bool.not_eq_true] at hmime
      simp [hmime, hM, hlen]

/-! ## Claim C4 — graceful degradation of processing failures -/

/-- **C4**: an image upload whose processing throws still succeeds: the
original buffer is stored, the original MIME type is persisted, no variants
are produced, the failure is logged as a warning, and no error event is
emitted. -/
theorem upload_processing_failure_degrades (cfg : MKConfig) (env : UploadEnv)
    (input : UploadInput) (ctx : Option OperationContext) (orgId : Option String)
    (pm : String) (hst : StorageHandle)
    (hinit : cfg.initialized = true)
    (ht : requireTenant cfg ctx = .ok orgId)
    (hval : validateFile cfg input.buffer input.mimeType = .ok ())
    (hfold : (!cfg.folders.baseFolders.isEmpty
      && !isValidFolder (targetFolderOf cfg input) cfg.folders.baseFolders) = false)
    (hsp : shouldProcessF cfg env input = true)
    (hproc : env.processor.processOutcome = .error pm)
    (hput : env.provider.putOutcome 0 = .ok hst)
    (hcr : env.createOutcome = .ok ()) :
    ∃ doc, (upload cfg env input ctx).result = .ok doc
      ∧ doc.mimeType = input.mimeType
      ∧ doc.variants = none
      ∧ MKEv.putOk .main input.filename input.buffer (targetFolderOf cfg input) hst.key
          ∈ (upload cfg env input ctx).trace
      ∧ MKEv.warn "processing-failed" ∈ (upload cfg env input ctx).trace
      ∧ ((upload cfg env input ctx).trace).countP MKEv.isErrorEv = 0 := by
  have hphase := phaseOf_sp_process_error cfg env input pm hsp hproc
  have hu : upload cfg env input ctx =
      ⟨.ok (mkDoc cfg env input ctx orgId
          ⟨input.buffer, input.mimeType, none, [], [.warn "processing-failed"], 0⟩ hst),
       [.beforeUpload, .warn "processing-failed",
        .putOk .main input.filename input.buffer (targetFolderOf cfg input) hst.key,
        .createCall (mkDoc cfg env input ctx orgId
          ⟨input.buffer, input.mimeType, none, [], [.warn "processing-failed"], 0⟩ hst),
        .afterUpload]⟩ := by
    unfold upload tryBody
    rw [hinit, ht, hval, hphase]
    simp [hfold, hput, hcr]
  refine ⟨mkDoc cfg env input ctx orgId
      ⟨input.buffer, input.mimeType, none, [], [.warn "processing-failed"], 0⟩ hst,
    by rw [hu], by simp [mkDoc], by simp [mkDoc], ?_, ?_, ?_⟩
  · rw [hu]; simp
  · rw [hu]; simp
  · rw [hu]; simp [MKEv.isErrorEv]

/-- Witness for C4 at a concrete run: processing of `a.jpg` throws, yet the
upload succeeds with the original buffer and MIME type and no variants. -/
theorem upload_processing_failure_degrades_witness :
    ∃ doc, (upload cfgOneSize envProcFails inpJpg none).result = .ok doc
      ∧ doc.mimeType = inpJpg.mimeType
      ∧ doc.variants = none
      ∧ MKEv.putOk .main inpJpg.filename inpJpg.buffer (targetFolderOf cfgOneSize inpJpg) "k"
          ∈ (upload cfgOneSize envProcFails inpJpg none).trace
      ∧ MKEv.warn "processing-failed" ∈ (upload cfgOneSize envProcFails inpJpg none).trace
      ∧ ((upload cfgOneSize envProcFails inpJpg none).trace).countP MKEv.isErrorEv = 0 :=
  upload_processing_failure_degrades cfgOneSize envProcFails inpJpg none none
    "unsupported image format" ⟨"u", "k", 5⟩ (by decide) (by decide) (by decide) (by decide)
    (by decide) (by decide) (by decide) (by decide)

/-! ## Claim C6 — validation rejects with no storage or persistence calls -/

/-- **C6**: a MIME type outside the (non-empty) allow-list, or a buffer over
the configured maximum size, makes `upload` reject with a validation error,
with no storage put and no persistence call. -/
theorem upload_validation_rejects_without_effects (cfg : MKConfig) (env : UploadEnv)
    (input : UploadInput) (ctx : Option OperationContext) (orgId : Option String)
    (hinit : cfg.initialized = true)
    (ht : requireTenant cfg ctx = .ok orgId)
    (hbad : (cfg.fileTypes.allowed ≠ []
        ∧ isAllowedMimeType input.mimeType cfg.fileTypes.allowed = false)
      ∨ (∃ M, cfg.fileTypes.maxSize = some M ∧ input.buffer.length > M)) :
    ∃ e, (upload cfg env input ctx).result = .error e ∧ e.isValidation = true
      ∧ ((upload cfg env input ctx).trace).countP MKEv.isPut = 0
      ∧ ((upload cfg env input ctx).trace).countP MKEv.isCreate = 0 := by
  obtain ⟨e, hval, hshape⟩ := validateFile_rejects cfg input.buffer input.mimeType hbad
  have htb := tryBody_validation_error cfg env input ctx orgId e hval
  have hu : upload cfg env input ctx = ⟨.error e, [.beforeUpload, .errorUpload]⟩ := by
    unfold upload
    rw [hinit, ht]
    simp [htb]
  exact ⟨e, by rw [hu], hshape, by rw [hu]; rfl, by rw [hu]; rfl⟩

/-- Witness for C6 at a concrete run: `text/plain` against an `image/*`
allow-list rejects with a validation error and an effect-free trace. -/
theorem upload_validation_rejects_without_effects_witness :
    ∃ e, (upload cfgStrict envProcFails inpTxt none).result = .error e
      ∧ e.isValidation = true
      ∧ ((upload cfgStrict envProcFails inpTxt none).trace).countP MKEv.isPut = 0
      ∧ ((upload cfgStrict envProcFails inpTxt none).trace).countP MKEv.isCreate = 0 :=
  upload_validation_rejects_without_effects cfgStrict envProcFails inpTxt none none
    (by decide) (by decide) (Or.inl ⟨by decide, by decide⟩)

/-! ## Deletion-flow lemmas and claims C7, C10 -/

/-- The variant deletion loop issues exactly one storage delete per variant,
in order. -/
theorem varDel_delKeys (env : UploadEnv) :
    ∀ (vs : List VariantRef) (acc : List MKEv),
      (vs.foldl (varDelStep env) acc).filterMap delKeyOf
        = acc.filterMap delKeyOf ++ vs.map (fun v => v.key) := by
  intro vs
  induction vs with
  | nil => intro acc; simp
  | cons v rest ih =>
    intro acc
    rw [List.foldl_cons, ih]
    unfold varDelStep
    cases hd : env.provider.delOutcome v.key <;>
      simp [List.filterMap_append, delKeyOf]

/-- The main artifact's deletion issues exactly one storage delete. -/
theorem mainDel_delKeys (env : UploadEnv) (key : String) :
    (mainDelTr env key).filterMap delKeyOf = [key] := by
  unfold mainDelTr
  cases hd : env.provider.delOutcome key <;> simp [delKeyOf]

/-- Events accumulated before the variant deletion loop are kept by it. -/
theorem varDel_mono (env : UploadEnv) :
    ∀ (vs : List VariantRef) (acc : List MKEv) (x : MKEv),
      x ∈ acc → x ∈ vs.foldl (varDelStep env) acc := by
  intro vs
  induction vs with
  | nil => intro acc x hx; exact hx
  | cons v rest ih =>
    intro acc x hx
    rw [List.foldl_cons]
    exact ih _ x (by unfold varDelStep; exact List.mem_append_left _ hx)

/-- A throwing variant deletion leaves a logged warning in the loop's trace. -/
theorem varDel_warn (env : UploadEnv) :
    ∀ (vs : List VariantRef) (acc : List MKEv) (v : VariantRef), v ∈ vs →
      (env.provider.delOutcome v.key).isOk = false →
      MKEv.warn "delete-variant-failed" ∈ vs.foldl (varDelStep env) acc := by
  intro vs
  induction vs with
  | nil => intro acc v hv _; cases hv
  | cons a rest ih =>
    intro acc v hv herr
    rw [List.foldl_cons]
    rcases List.mem_cons.mp hv with h | h
    · subst h
      refine varDel_mono env rest _ _ ?_
      unfold varDelStep
      cases hd : env.provider.delOutcome v.key with
      | ok b => rw [hd] at herr; cases herr
      | error e => simp
    · exact ih _ v h herr

/-- **C7**: for an existing record, `delete` issues exactly one storage
delete for the main artifact followed by one per variant (in order), removes
the record, and returns `true` — for every behavior of the storage
provider's `delete`, throwing included: storage failures never change the
result or prevent record removal. -/
theorem delete_tolerates_storage_failures (cfg : MKConfig) (env : UploadEnv)
    (store : List DbDoc) (id : String) (ctx : Option OperationContext) (media : DbDoc)
    (hinit : cfg.initialized = true)
    (hget : repoGetById cfg.multiTenancy store id ctx = .ok (some media)) :
    (deleteOp cfg env store id ctx).result = .ok true
    ∧ ((deleteOp cfg env store id ctx).trace).filterMap delKeyOf
        = media.key :: media.variants.map (fun v => v.key)
    ∧ ((env.provider.delOutcome media.key).isOk = false →
        MKEv.warn "delete-main-failed" ∈ (deleteOp cfg env store id ctx).trace)
    ∧ (∀ v ∈ media.variants, (env.provider.delOutcome v.key).isOk = false →
        MKEv.warn "delete-variant-failed" ∈ (deleteOp cfg env store id ctx).trace)
    ∧ ∃ q, buildFilters cfg.multiTenancy [("_id", .eqv id)] ctx = .ok q
        ∧ store.find? (matchesDoc q) = some media
        ∧ (deleteOp cfg env store id ctx).store = removeFirstP (matchesDoc q) store := by
  unfold repoGetById at hget
  cases hbf : buildFilters cfg.multiTenancy [("_id", .eqv id)] ctx with
  | error e => rw [hbf] at hget; cases hget
  | ok q =>
    rw [hbf] at hget
    have hfind : store.find? (matchesDoc q) = some media := by
      cases hget2 : store.find? (matchesDoc q) with
      | none => simp [Except.map, hget2] at hget
      | some d =>
        simp [Except.map, hget2] at hget
        rw [hget]
    have hdel : repoDelete cfg.multiTenancy store id ctx
        = .ok (true, removeFirstP (matchesDoc q) store) := by
      unfold repoDelete
      rw [hbf]
      simp [Except.map, hfind]
    have hu : deleteOp cfg env store id ctx
        = ⟨.ok true, removeFirstP (matchesDoc q) store,
           mainDelTr env media.key ++ media.variants.foldl (varDelStep env) []⟩ := by
      unfold deleteOp repoGetById
      rw [hinit, hbf]
      simp [Except.map, hfind, hdel]
    refine ⟨by rw [hu], ?_, ?_, ?_, q, rfl, hfind, by rw [hu]⟩
    · rw [hu]
      show (mainDelTr env media.key
          ++ media.variants.foldl (varDelStep env) []).filterMap delKeyOf = _
      rw [List.filterMap_append, mainDel_delKeys, varDel_delKeys]
      rfl
    · intro herr
      rw [hu]
      refine List.mem_append_left _ ?_
      unfold mainDelTr
      cases hd : env.provider.delOutcome media.key with
      | ok b => rw [hd] at herr; cases herr
      | error e => simp
    · intro v hv herr
      rw [hu]
      exact List.mem_append_right _ (varDel_warn env media.variants [] v hv herr)

/-- Witness for C7 at a concrete run: storage deletion throws for every key,
yet the record is removed and `delete` returns `true`, after one delete call
for the main key and one for the variant key. -/
theorem delete_tolerates_storage_failures_witness :
    (deleteOp cfgOneSize envDelFails [docStored] "id1" none).result = .ok true
    ∧ ((deleteOp cfgOneSize envDelFails [docStored] "id1" none).trace).filterMap delKeyOf
        = docStored.key :: docStored.variants.map (fun v => v.key)
    ∧ ((envDelFails.provider.delOutcome docStored.key).isOk = false →
        MKEv.warn "delete-main-failed"
          ∈ (deleteOp cfgOneSize envDelFails [docStored] "id1" none).trace)
    ∧ (∀ v ∈ docStored.variants, (envDelFails.provider.delOutcome v.key).isOk = false →
        MKEv.warn "delete-variant-failed"
          ∈ (deleteOp cfgOneSize envDelFails [docStored] "id1" none).trace)
    ∧ ∃ q, buildFilters cfgOneSize.multiTenancy [("_id", .eqv "id1")] none = .ok q
        ∧ [docStored].find? (matchesDoc q) = some docStored
        ∧ (deleteOp cfgOneSize envDelFails [docStored] "id1" none).store
            = removeFirstP (matchesDoc q) [docStored] :=
  delete_tolerates_storage_failures cfgOneSize envDelFails [docStored] "id1" none docStored
    (by decide) (by decide)

/-- **C10**: when the repository holds no record for the id, `delete` returns
`false` and is side-effect free — no storage delete call, no repository
delete, store unchanged. -/
theorem delete_absent_id_no_effects (cfg : MKConfig) (env : UploadEnv)
    (store : List DbDoc) (id : String) (ctx : Option OperationContext)
    (hinit : cfg.initialized = true)
    (hget : repoGetById cfg.multiTenancy store id ctx = .ok none) :
    deleteOp cfg env store id ctx = ⟨.ok false, store, []⟩ := by
  unfold deleteOp
  rw [hinit]
  simp [hget]

/-- Witness for C10: deleting an unknown id from a store holding one record
returns `false` with no effect. -/
theorem delete_absent_id_no_effects_witness :
    deleteOp cfgOneSize envDelFails [docStored] "missing" none
      = ⟨.ok false, [docStored], []⟩ :=
  delete_absent_id_no_effects cfgOneSize envDelFails [docStored] "missing" none
    (by decide) (by decide)

/-! ## Retry policy — claim C8 -/

/-- The attempt loop performs at most `remaining + 1` further invocations. -/
theorem withRetryAux_le {α : Type} (op : Nat → Except String α) (isR : String → Bool) :
    ∀ (remaining attempt : Nat),
      (withRetryAux op isR attempt remaining).2 ≤ attempt + remaining + 1 := by
  intro remaining
  induction remaining with
  | zero =>
    intro attempt
    unfold withRetryAux
    cases op attempt with
    | ok a => simp
    | error e => cases isR e <;> simp
  | succ r ih =>
    intro attempt
    unfold withRetryAux
    cases op attempt with
    | ok a =>
      show attempt + 1 ≤ attempt + (r + 1) + 1
      omega
    | error e =>
      cases hre : isR e with
      | false => simp [hre]
      | true =>
        simp only [hre, if_true]
        calc (withRetryAux op isR (attempt + 1) r).2 ≤ attempt + 1 + r + 1 := ih (attempt + 1)
          _ ≤ attempt + (r + 1) + 1 := by omega

/-- **C8**: `withRetry` invokes the operation at most `maxRetries + 1` times;
with `maxRetries = 2` on an operation failing retryably twice then
succeeding it performs exactly 3 invocations and returns the success value;
and on a non-retryable first failure it performs exactly 1 invocation and
rejects with that error unchanged. -/
theorem withRetry_attempt_bounds {α : Type} :
    (∀ (op : Nat → Except String α) (n : Nat) (isR : String → Bool),
      (withRetry op n isR).2 ≤ n + 1)
    ∧ (∀ (v : α) (e1 e2 : String) (isR : String → Bool), isR e1 = true → isR e2 = true →
      withRetry (fun i => if i == 0 then .error e1 else if i == 1 then .error e2 else .ok v)
        2 isR = (.ok v, 3))
    ∧ (∀ (op : Nat → Except String α) (e : String) (n : Nat) (isR : String → Bool),
      isR e = false → op 0 = .error e → withRetry op n isR = (.error e, 1)) := by
  refine ⟨?_, ?_, ?_⟩
  · intro op n isR
    simpa using withRetryAux_le op isR n 0
  · intro v e1 e2 isR h1 h2
    simp [withRetry, withRetryAux, h1, h2]
  · intro op e n isR hr hop
    cases n <;> · unfold withRetry withRetryAux; rw [hop]; simp [hr]

/-- Witness for C8 with the default (spec-modelled) classification: two
retryable failures then success in exactly 3 invocations, and one
non-retryable failure rejected unchanged after exactly 1 invocation. -/
theorem withRetry_attempt_bounds_witness :
    withRetry (fun i => if i == 0 then .error "network error"
        else if i == 1 then .error "timeout" else .ok 7) 2 isRetryableError = (.ok 7, 3)
    ∧ withRetry (fun _ => (.error "access denied" : Except String Nat)) 3 isRetryableError
        = (.error "access denied", 1) :=
  ⟨withRetry_attempt_bounds.2.1 7 "network error" "timeout" isRetryableError
      (by decide) (by decide),
   withRetry_attempt_bounds.2.2 (fun _ => .error "access denied") "access denied" 3
      isRetryableError (by decide) rfl⟩

/-! ## Repository tenant-isolation lemmas and claim C9 -/

/-- With multi-tenancy enabled and no organization id, the tenant check
throws. -/
theorem requireTenantContext_missing (mt : MultiTenancyConfig) (ctx : Option OperationContext)
    (hmt : mt.enabled = true)
    (horg : falsyStr (ctx.bind (fun c => c.organizationId)) = true) :
    requireTenantContext mt ctx = .error (.tenantRequired (tenantField mt)) := by
  unfold requireTenantContext
  rw [hmt]
  simp [horg]

/-- With multi-tenancy enabled and a truthy organization id, the tenant check
yields the tenant field-value pair. -/
theorem requireTenantContext_present (mt : MultiTenancyConfig) (ctx : Option OperationContext)
    (o : String) (hmt : mt.enabled = true)
    (horg : ctx.bind (fun c => c.organizationId) = some o) (ho : o ≠ "") :
    requireTenantContext mt ctx = .ok (some (tenantField mt, o)) := by
  unfold requireTenantContext
  rw [hmt]
  simp [horg, falsyStr, ho]

/-- With a tenant present, `buildFilters` appends the tenant equality
constraint (overriding any caller-supplied constraint on that field). -/
theorem buildFilters_present (mt : MultiTenancyConfig) (fs : List (String × FilterVal))
    (ctx : Option OperationContext) (o : String) (hmt : mt.enabled = true)
    (horg : ctx.bind (fun c => c.organizationId) = some o) (ho : o ≠ "") :
    buildFilters mt fs ctx
      = .ok ((fs.filter (fun kv => kv.1 != tenantField mt)) ++ [(tenantField mt, .eqv o)]) := by
  unfold buildFilters
  rw [requireTenantContext_present mt ctx o hmt horg ho]
  rfl

/-- A document matching a tenant-augmented filter carries the tenant value in
its tenant field. -/
theorem matchesDoc_tenant (q2 : List (String × FilterVal)) (f o : String) (d : DbDoc)
    (h : matchesDoc (q2 ++ [(f, .eqv o)]) d = true) : d.lookupField f = some o := by
  unfold matchesDoc at h
  rw [List.all_append] at h
  have h2 := (List.all_eq_true.mp (Bool.and_eq_true_iff.mp h).2) (f, .eqv o) (by simp)
  cases hl : d.lookupField f with
  | none => rw [hl] at h2; cases h2
  | some s =>
    rw [hl] at h2
    simp only [matchVal] at h2
    have : s = o := by simpa using h2
    rw [this]

/-- Removing the first match keeps every non-matching document. -/
theorem removeFirstP_preserve (p : DbDoc → Bool) :
    ∀ (l : List DbDoc) (d : DbDoc), d ∈ l → p d = false → d ∈ removeFirstP p l := by
  intro l
  induction l with
  | nil => intro d h _; cases h
  | cons a rest ih =>
    intro d hd hp
    unfold removeFirstP
    rcases List.mem_cons.mp hd with h | h
    · subst h
      simp [hp]
    · by_cases ha : p a = true
      · simp [ha, h]
      · have ha2 : p a = false := by revert ha; cases p a <;> simp
        simp only [ha2, Bool.false_eq_true, if_false]
        exact List.mem_cons_of_mem a (ih d h hp)

/-- Updating the first match keeps every non-matching document unchanged. -/
theorem updateFirstP_preserve (p : DbDoc → Bool) (g : DbDoc → DbDoc) :
    ∀ (l : List DbDoc) (d : DbDoc), d ∈ l → p d = false → d ∈ updateFirstP p g l := by
  intro l
  induction l with
  | nil => intro d h _; cases h
  | cons a rest ih =>
    intro d hd hp
    unfold updateFirstP
    rcases List.mem_cons.mp hd with h | h
    · subst h
      simp [hp]
    · by_cases ha : p a = true
      · simp only [ha, if_true]
        exact List.mem_cons_of_mem _ h
      · have ha2 : p a = false := by revert ha; cases p a <;> simp
        simp only [ha2, Bool.false_eq_true, if_false]
        exact List.mem_cons_of_mem a (ih d h hp)

/-- Looking up the key written by `setField` finds the written value. -/
theorem lookup_setField (fs : List (String × String)) (k v : String) :
    (setField fs k v).lookup k = some v := by
  unfold setField
  induction fs with
  | nil => simp [List.lookup]
  | cons a rest ih =>
    obtain ⟨k1, v1⟩ := a
    by_cases ha : k1 = k
    · simpa [List.filter_cons, ha] using ih
    · have hne : ((k1, v1).1 != k) = true := by simp [ha]
      rw [List.filter_cons, if_pos hne, List.cons_append]
      have hkk : (k == k1) = false := by simp [Ne.symm ha]
      simp only [List.lookup, hkk]
      exact ih

/-- The tenant field stamped by `setField` is what `lookupField` reads. -/
theorem lookupField_setField (d : DbDoc) (k v : String) :
    ({ d with fields := setField d.fields k v } : DbDoc).lookupField k = some v := by
  unfold DbDoc.lookupField
  rw [lookup_setField]

/-- **C9**: with multi-tenancy enabled, every repository operation throws
when the context carries no organization id; with an organization id, every
read returns only documents whose configured tenant field equals it, every
removal or update leaves other tenants' documents in place, and `create`
stamps the tenant field — no operation reads or removes another tenant's
records. -/
theorem repository_tenant_isolation (mt : MultiTenancyConfig) (store : List DbDoc)
    (ctx : Option OperationContext) (hmt : mt.enabled = true) :
    (falsyStr (ctx.bind (fun c => c.organizationId)) = true →
      (∀ id, repoGetById mt store id ctx = .error (.tenantRequired (tenantField mt)))
      ∧ (∀ fs limit maxLimit, repoGetAll mt store fs limit maxLimit ctx
          = .error (.tenantRequired (tenantField mt)))
      ∧ (∀ id g, repoUpdate mt store id g ctx = .error (.tenantRequired (tenantField mt)))
      ∧ (∀ id, repoDelete mt store id ctx = .error (.tenantRequired (tenantField mt)))
      ∧ (∀ ids, repoDeleteMany mt store ids ctx = .error (.tenantRequired (tenantField mt)))
      ∧ (∀ folder limit maxLimit, repoGetByFolder mt store folder limit maxLimit ctx
          = .error (.tenantRequired (tenantField mt)))
      ∧ (∀ fp, repoGetFilesInFolder mt store fp ctx
          = .error (.tenantRequired (tenantField mt)))
      ∧ (∀ ids tf, repoMoveToFolder mt store ids tf ctx
          = .error (.tenantRequired (tenantField mt)))
      ∧ (∀ data, repoCreate mt data ctx = .error (.tenantRequired (tenantField mt))))
    ∧
    (∀ o, ctx.bind (fun c => c.organizationId) = some o → o ≠ "" →
      (∀ id d, repoGetById mt store id ctx = .ok (some d) →
        d.lookupField (tenantField mt) = some o)
      ∧ (∀ fs limit maxLimit ds, repoGetAll mt store fs limit maxLimit ctx = .ok ds →
        ∀ d ∈ ds, d.lookupField (tenantField mt) = some o)
      ∧ (∀ folder limit maxLimit ds, repoGetByFolder mt store folder limit maxLimit ctx = .ok ds →
        ∀ d ∈ ds, d.lookupField (tenantField mt) = some o)
      ∧ (∀ fp ds, repoGetFilesInFolder mt store fp ctx = .ok ds →
        ∀ d ∈ ds, d.lookupField (tenantField mt) = some o)
      ∧ (∀ id b store2, repoDelete mt store id ctx = .ok (b, store2) →
        ∀ d ∈ store, d.lookupField (tenantField mt) ≠ some o → d ∈ store2)
      ∧ (∀ ids n store2, repoDeleteMany mt store ids ctx = .ok (n, store2) →
        ∀ d ∈ store, d.lookupField (tenantField mt) ≠ some o → d ∈ store2)
      ∧ (∀ id g r store2, repoUpdate mt store id g ctx = .ok (r, store2) →
        ∀ d ∈ store, d.lookupField (tenantField mt) ≠ some o → d ∈ store2)
      ∧ (∀ ids tf n store2, repoMoveToFolder mt store ids tf ctx = .ok (n, store2) →
        ∀ d ∈ store, d.lookupField (tenantField mt) ≠ some o → d ∈ store2)
      ∧ (∀ data d, repoCreate mt data ctx = .ok d →
        d.lookupField (tenantField mt) = some o)) := by
  constructor
  · intro horg
    have hreq := requireTenantContext_missing mt ctx hmt horg
    have hbf : ∀ fs, buildFilters mt fs ctx = .error (.tenantRequired (tenantField mt)) := by
      intro fs
      unfold buildFilters
      rw [hreq]
      rfl
    refine ⟨?_, ?_, ?_, ?_, ?_, ?_, ?_, ?_, ?_⟩ <;>
      intros <;>
      simp only [repoGetById, repoGetAll, repoUpdate, repoDelete, repoDeleteMany,
        repoGetByFolder, repoGetFilesInFolder, repoMoveToFolder, repoCreate, hbf, hreq] <;>
      rfl
  · intro o horg ho
    have hmatch : ∀ (fs : List (String × FilterVal)) (d : DbDoc),
        matchesDoc ((fs.filter (fun kv => kv.1 != tenantField mt))
          ++ [(tenantField mt, .eqv o)]) d = true →
        d.lookupField (tenantField mt) = some o := by
      intro fs d hm
      exact matchesDoc_tenant _ (tenantField mt) o d hm
    have hnomatch : ∀ (fs : List (String × FilterVal)) (d : DbDoc),
        d.lookupField (tenantField mt) ≠ some o →
        matchesDoc ((fs.filter (fun kv => kv.1 != tenantField mt))
          ++ [(tenantField mt, .eqv o)]) d = false := by
      intro fs d hne
      cases hm : matchesDoc ((fs.filter (fun kv => kv.1 != tenantField mt))
          ++ [(tenantField mt, .eqv o)]) d with
      | false => rfl
      | true => exact absurd (hmatch fs d hm) hne
    refine ⟨?_, ?_, ?_, ?_, ?_, ?_, ?_, ?_, ?_⟩
    · intro id d hd
      rw [repoGetById, buildFilters_present mt _ ctx o hmt horg ho] at hd
      simp only [Except.map] at hd
      exact hmatch _ d (List.find?_some (Except.ok.inj hd))
    · intro fs limit maxLimit ds hds d hd
      rw [repoGetAll, buildFilters_present mt _ ctx o hmt horg ho] at hds
      simp only [Except.map] at hds
      have hds2 := Except.ok.inj hds
      rw [← hds2] at hd
      have hd2 := List.mem_of_mem_take hd
      exact hmatch _ d (List.mem_filter.mp hd2).2
    · intro folder limit maxLimit ds hds d hd
      rw [repoGetByFolder, buildFilters_present mt _ ctx o hmt horg ho] at hds
      simp only [Except.map] at hds
      have hds2 := Except.ok.inj hds
      rw [← hds2] at hd
      have hd2 := List.mem_of_mem_take hd
      exact hmatch _ d (List.mem_filter.mp hd2).2
    · intro fp ds hds d hd
      rw [repoGetFilesInFolder, buildFilters_present mt _ ctx o hmt horg ho] at hds
      simp only [Except.map] at hds
      have hds2 := Except.ok.inj hds
      rw [← hds2] at hd
      exact hmatch _ d (List.mem_filter.mp hd).2
    · intro id b store2 hdel d hd hne
      rw [repoDelete, buildFilters_present mt _ ctx o hmt horg ho] at hdel
      simp only [Except.map] at hdel
      have h2 := (Prod.mk.injEq _ _ _ _).mp (Except.ok.inj hdel)
      rw [← h2.2]
      exact removeFirstP_preserve _ store d hd (hnomatch _ d hne)
    · intro ids n store2 hdel d hd hne
      rw [repoDeleteMany, buildFilters_present mt _ ctx o hmt horg ho] at hdel
      simp only [Except.map] at hdel
      have h2 := (Prod.mk.injEq _ _ _ _).mp (Except.ok.inj hdel)
      rw [← h2.2]
      exact List.mem_filter.mpr ⟨hd, by simp [hnomatch _ d hne]⟩
    · intro id g r store2 hup d hd hne
      rw [repoUpdate, buildFilters_present mt _ ctx o hmt horg ho] at hup
      simp only [Except.map] at hup
      have h2 := (Prod.mk.injEq _ _ _ _).mp (Except.ok.inj hup)
      rw [← h2.2]
      exact updateFirstP_preserve _ g store d hd (hnomatch _ d hne)
    · intro ids tf n store2 hmv d hd hne
      rw [repoMoveToFolder, buildFilters_present mt _ ctx o hmt horg ho] at hmv
      simp only [Except.map] at hmv
      have h2 := (Prod.mk.injEq _ _ _ _).mp (Except.ok.inj hmv)
      rw [← h2.2]
      refine List.mem_map.mpr ⟨d, hd, ?_⟩
      simp [hnomatch _ d hne]
    · intro data d hd
      rw [repoCreate, requireTenantContext_present mt ctx o hmt horg ho] at hd
      simp only [Except.map] at hd
      rw [← Except.ok.inj hd]
      exact lookupField_setField _ (tenantField mt) o

/-- Witness for C9 at a concrete tenant setup: a missing organization id
makes `getById` throw, and with one the other tenant's record is invisible
and survives deletion. -/
theorem repository_tenant_isolation_witness :
    repoGetById { enabled := true, tenantKey := "organizationId" }
        [{ id := "x", folder := "general", baseFolder := "general", key := "k",
           variants := [], fields := [("organizationId", "orgB")] }] "x" none
      = .error (.tenantRequired "organizationId")
    ∧ (∀ d, repoGetById { enabled := true, tenantKey := "organizationId" }
        [{ id := "x", folder := "general", baseFolder := "general", key := "k",
           variants := [], fields := [("organizationId", "orgB")] }] "x"
        (some { organizationId := some "orgA", userId := none })
      = .ok (some d) → d.lookupField "organizationId" = some "orgA") := by
  constructor
  · exact ((repository_tenant_isolation { enabled := true, tenantKey := "organizationId" }
      [{ id := "x", folder := "general", baseFolder := "general", key := "k",
         variants := [], fields := [("organizationId", "orgB")] }] none (by decide)).1
      (by decide)).1 "x"
  · intro d
    exact fun hd => ((repository_tenant_isolation { enabled := true, tenantKey := "organizationId" }
      [{ id := "x", folder := "general", baseFolder := "general", key := "k",
         variants := [], fields := [("organizationId", "orgB")] }]
      (some { organizationId := some "orgA", userId := none }) (by decide)).2
      "orgA" (by decide) (by decide)).1 "x" d hd

end MediaKit
